import Mathlib

/-! Scan configuration and scan sequence of kubescape.

A shallow embedding of the `ScanInfo` record and of the functions that resolve
it (`core/cautils/scaninfo.go`: `Init`, `setUseFrom`, `setOutputFile`,
`setUseArtifactsFrom`, `GetScanningEnvironment`, `SetPolicyIdentifiers`,
`scanInfoToScanMetadata`, `setContextMetadata`), of the scan sequence
(`core/core/scan.go`: `getInterfaces`, `Scan`) and of `JsonPrinter.SetWriter`
(`printer/v2/jsonprinter.go`), followed by the properties proved about them.

Conventions of the embedding:

* a Go `string` is a Lean `String`, a Go slice is a `List` (a nil slice and an
  empty slice are both `[]`; the code only takes `len` of and ranges over them);
* the standard-library path functions scan bytes for `'.'` and `'/'`; both are
  single-byte characters, so the scan is done on the characters of the string;
* paths follow the Unix rules of `path/filepath` (separator `'/'`, no volume
  name);
* a pointer receiver that is mutated becomes a function returning the new
  record; `logger.L().Fatal`, which ends the process, becomes `none`;
* calls that leave the program (file system, uuid generator, git-url parser)
  are fields of the record `Env`; the collaborators of the scan sequence are
  the types of `CoreTypes` and the fields of `Core`, and the calls that act on
  them are listed, in order, as `Event`s.
-/

namespace Kubescape

/-! ## Types declared outside the available sources -/

/-- Types that `ScanInfo` mentions but that are declared in other packages.
The code below never inspects their values; it only stores them, and for
`PortalDesignator` constructs the Go zero value. -/
structure Foreign where
  /-- The interface type `getter.IExceptionsGetter`. -/
  IExceptionsGetter : Type
  /-- The interface type `getter.IControlsInputsGetter`. -/
  IControlsInputsGetter : Type
  /-- The interface type `getter.IPolicyGetter`. -/
  IPolicyGetter : Type
  /-- The struct type `cautils.Credentials`. -/
  Credentials : Type
  /-- The struct type `armotypes.PortalDesignator`. -/
  PortalDesignator : Type
  /-- The Go zero value of `armotypes.PortalDesignator`. -/
  zeroDesignator : PortalDesignator

/-- The named string type `apisv1.NotificationPolicyKind`. -/
abbrev NotificationPolicyKind := String

/-! ## Constants of `scaninfo.go` -/

def ScanCluster : String := "cluster"

def ScanLocalFiles : String := "yaml"

def localControlInputsFilename : String := "controls-inputs.json"

def localExceptionsFilename : String := "exceptions.json"

/-! ## Records -/

/-- The struct `BoolPtrFlag`: `valPtr *bool`, nil being `none`. -/
structure BoolPtrFlag where
  valPtr : Option Bool

/-- The method `BoolPtrFlag.GetBool`. -/
def BoolPtrFlag.GetBool (bpf : BoolPtrFlag) : Bool :=
  match bpf.valPtr with
  | none => false
  | some b => b

/-- The struct `PolicyIdentifier`. -/
structure PolicyIdentifier (F : Foreign) where
  Name : String
  Kind : NotificationPolicyKind
  Designators : F.PortalDesignator

/-- The struct `Getters`. -/
structure Getters (F : Foreign) where
  ExceptionsGetter : F.IExceptionsGetter
  ControlsInputsGetter : F.IControlsInputsGetter
  PolicyGetter : F.IPolicyGetter

/-- The struct `ScanInfo`, field by field. `FailThreshold` is a `float32`
that the code only copies; it is carried as its IEEE-754 bit pattern. -/
structure ScanInfo (F : Foreign) where
  Getters : Getters F
  PolicyIdentifier : List (PolicyIdentifier F)
  UseExceptions : String
  ControlsInputs : String
  UseFrom : List String
  UseDefault : Bool
  UseArtifactsFrom : String
  VerboseMode : Bool
  View : String
  Format : String
  Output : String
  FormatVersion : String
  ExcludedNamespaces : String
  IncludeNamespaces : String
  InputPatterns : List String
  Silent : Bool
  FailThreshold : Nat
  Submit : Bool
  ScanID : String
  HostSensorEnabled : BoolPtrFlag
  HostSensorYamlPath : String
  Local : Bool
  Credentials : F.Credentials
  KubeContext : String
  FrameworkScan : Bool
  ScanAll : Bool

variable {F : Foreign}

/-! ## `GetScanningEnvironment`, `contains`, `SetPolicyIdentifiers` -/

/-- The method `ScanInfo.GetScanningEnvironment`. -/
def ScanInfo.GetScanningEnvironment (scanInfo : ScanInfo F) : String :=
  if scanInfo.InputPatterns.length ≠ 0 then ScanLocalFiles else ScanCluster

/-- The loop of `ScanInfo.contains` over the policy identifiers. -/
def containsLoop : List (PolicyIdentifier F) → String → Bool
  | [], _ => false
  | policy :: rest, policyName =>
    if policy.Name = policyName then true else containsLoop rest policyName

/-- The method `ScanInfo.contains`. -/
def ScanInfo.contains (scanInfo : ScanInfo F) (policyName : String) : Bool :=
  containsLoop scanInfo.PolicyIdentifier policyName

/-- One iteration of the loop of `SetPolicyIdentifiers`. -/
def setPolicyStep (kind : NotificationPolicyKind) (scanInfo : ScanInfo F)
    (policy : String) : ScanInfo F :=
  if !scanInfo.contains policy then
    let newPolicy : PolicyIdentifier F :=
      { Name := policy, Kind := kind, Designators := F.zeroDesignator }
    { scanInfo with PolicyIdentifier := scanInfo.PolicyIdentifier ++ [newPolicy] }
  else scanInfo

/-- The method `ScanInfo.SetPolicyIdentifiers`: the range loop over `policies`,
each iteration reading the list as the earlier iterations left it. -/
def ScanInfo.SetPolicyIdentifiers (scanInfo : ScanInfo F) (policies : List String)
    (kind : NotificationPolicyKind) : ScanInfo F :=
  policies.foldl (setPolicyStep kind) scanInfo

/-! ## Standard-library string and path functions used by the code -/

/-- The function `os.IsPathSeparator` (Unix): `PathSeparator == c`. -/
def IsPathSeparator (c : Char) : Bool := c == '/'

/-- The loop of `filepath.Ext`: the first argument is `path[:i+1]` reversed (its
head is `path[i]`), the second is `path[i+1:]`. -/
def extLoop : List Char → List Char → List Char
  | [], _ => []
  | c :: before, after =>
    if IsPathSeparator c then []
    else if c = '.' then c :: after
    else extLoop before (c :: after)

/-- The function `filepath.Ext`: the suffix beginning at the final dot in the
final element of the path, empty if there is no dot. -/
def Ext (path : String) : String := ⟨extLoop path.data.reverse []⟩

/-- The loop of `filepath.Split`: the first argument is `path[:i+1]` reversed,
the second is `path[i+1:]`; it stops on a separator or at the start. -/
def splitLoop : List Char → List Char → List Char × List Char
  | [], after => ([], after)
  | c :: before, after =>
    if IsPathSeparator c then ((c :: before).reverse, after)
    else splitLoop before (c :: after)

/-- The function `filepath.Split`: splits immediately following the final
separator into a directory and a file name component. -/
def Split (path : String) : String × String :=
  let r := splitLoop path.data.reverse []
  (⟨r.1⟩, ⟨r.2⟩)

/-- The search of `strings.Contains` (`strings.Index(s, substr) >= 0`): is
`substr` a prefix of `s[i:]` for some `i`. -/
def containsChars : List Char → List Char → Bool
  | [], substr => substr.isEmpty
  | c :: s, substr => substr.isPrefixOf (c :: s) || containsChars s substr

/-- The function `strings.Contains`. -/
def Contains (s substr : String) : Bool := containsChars s.data substr.data

/-! ## The environment -/

/-- The result of `giturl.NewGitURL`, as far as the code reads it. -/
structure GitURL where
  owner : String
  repo : String
  branch : String

/-- Everything the code reaches outside the program. A field is the result
the call gives; the file system does not change during a call of `Init`. -/
structure Env where
  /-- The function `getter.GetDefaultPath`. -/
  GetDefaultPath : String → String
  /-- The function `filepath.Join` of two elements. -/
  Join : String → String → String
  /-- The function `ioutil.ReadDir`: the names of the entries in listing order,
  `none` on error. -/
  ReadDir : String → Option (List String)
  /-- The function `os.ReadFile`: the bytes, `none` on error. -/
  ReadFile : String → Option (List UInt8)
  /-- Whether `json.Unmarshal` of the bytes into a `reporthandling.Framework`
  returns a nil error. -/
  UnmarshalFramework : List UInt8 → Bool
  /-- The package variable `cautils.BuildNumber`. -/
  BuildNumber : String
  /-- The function `k8sinterface.GetContextName`. -/
  GetContextName : String
  /-- The function `giturl.NewGitURL`, `none` on error. -/
  NewGitURL : String → Option GitURL
  /-- The method `SetDefaultBranch` of the parsed url. -/
  SetDefaultBranch : GitURL → GitURL
  /-- The function `os.Getwd`, `none` on error. -/
  Getwd : Option String
  /-- The function `cautils.IsFile`. -/
  IsFile : String → Bool
  /-- The function `os.Hostname`, `none` on error. -/
  Hostname : Option String

/-! ## `setUseFrom`, `setOutputFile`, `setUseArtifactsFrom`, `Init` -/

/-- The method `ScanInfo.setUseFrom`. -/
def ScanInfo.setUseFrom (env : Env) (scanInfo : ScanInfo F) : ScanInfo F :=
  if scanInfo.UseDefault then
    scanInfo.PolicyIdentifier.foldl
      (fun si policy =>
        { si with UseFrom := si.UseFrom ++ [env.GetDefaultPath (policy.Name ++ ".json")] })
      scanInfo
  else scanInfo

/-- One of the three format blocks of `setOutputFile`. -/
def setOutputExt (format ext : String) (scanInfo : ScanInfo F) : ScanInfo F :=
  if scanInfo.Format = format then
    if Ext scanInfo.Output ≠ ext then { scanInfo with Output := scanInfo.Output ++ ext }
    else scanInfo
  else scanInfo

/-- The method `ScanInfo.setOutputFile`. -/
def ScanInfo.setOutputFile (scanInfo : ScanInfo F) : ScanInfo F :=
  if scanInfo.Output = "" then scanInfo
  else
    let s1 := setOutputExt "json" ".json" scanInfo
    let s2 := setOutputExt "junit" ".xml" s1
    setOutputExt "pdf" ".pdf" s2

/-- The first block of `setUseArtifactsFrom`: `UseArtifactsFrom` must be a path
without a filename. -/
def normalizeArtifactsFrom (path : String) : String :=
  let (dir, file) := Split path
  if dir = "" then file
  else if Contains file ".json" then dir
  else path

/-- One iteration of the loop over the directory entries in
`setUseArtifactsFrom`. -/
def artifactsStep (env : Env) (scanInfo : ScanInfo F) (name : String) : ScanInfo F :=
  let filePath := env.Join scanInfo.UseArtifactsFrom name
  match env.ReadFile filePath with
  | some file =>
    if env.UnmarshalFramework file then
      { scanInfo with UseFrom := scanInfo.UseFrom ++ [env.Join scanInfo.UseArtifactsFrom name] }
    else scanInfo
  | none => scanInfo

/-- The method `ScanInfo.setUseArtifactsFrom`; `none` is the fatal exit taken
when the directory cannot be read. -/
def ScanInfo.setUseArtifactsFrom (env : Env) (scanInfo : ScanInfo F) : Option (ScanInfo F) :=
  if scanInfo.UseArtifactsFrom = "" then some scanInfo
  else
    let s1 := { scanInfo with UseArtifactsFrom := normalizeArtifactsFrom scanInfo.UseArtifactsFrom }
    match env.ReadDir s1.UseArtifactsFrom with
    | none => none
    | some files =>
      let s2 := files.foldl (artifactsStep env) s1
      let s3 := { s2 with ControlsInputs := env.Join s2.UseArtifactsFrom localControlInputsFilename }
      some { s3 with UseExceptions := env.Join s3.UseArtifactsFrom localExceptionsFilename }

/-- The method `ScanInfo.Init`; `newString` is what `uuid.NewString()` returns
when this call reaches it. -/
def ScanInfo.Init (env : Env) (newString : String) (scanInfo : ScanInfo F) :
    Option (ScanInfo F) :=
  let s1 := scanInfo.setUseFrom env
  let s2 := s1.setOutputFile
  match s2.setUseArtifactsFrom env with
  | none => none
  | some s3 => if s3.ScanID = "" then some { s3 with ScanID := newString } else some s3

/-! ## `scanInfoToScanMetadata` and `setContextMetadata` -/

/-- The constants `reporthandlingv2.Cluster` and `reporthandlingv2.File` of the
type `ScanningTarget`. -/
inductive ScanningTarget where
  | Cluster
  | File
  deriving DecidableEq, Repr

/-- The fields of `reporthandlingv2.ScanMetadata` that `scanInfoToScanMetadata`
assigns; the fields it never assigns keep their zero value and are not
represented. `FailThreshold` is carried as in `ScanInfo`. -/
structure ScanMetadata where
  Format : String
  FormatVersion : String
  Submit : Bool
  TargetType : String
  TargetNames : List String
  KubescapeVersion : String
  VerboseMode : Bool
  FailThreshold : Nat
  HostScanner : Bool
  ControlsInputs : String
  ScanningTarget : ScanningTarget

/-- The struct `reporthandlingv2.ClusterMetadata`. -/
structure ClusterMetadata where
  ContextName : String
  deriving DecidableEq

/-- The struct `reporthandlingv2.RepoContextMetadata`. -/
structure RepoContextMetadata where
  Repo : String
  Owner : String
  Branch : String
  deriving DecidableEq

/-- The struct `reporthandlingv2.FileContextMetadata`. -/
structure FileContextMetadata where
  FilePath : String
  HostName : String
  deriving DecidableEq

/-- The struct `reporthandlingv2.DirectoryContextMetadata`. -/
structure DirectoryContextMetadata where
  BasePath : String
  HostName : String
  deriving DecidableEq

/-- The struct `reporthandlingv2.ContextMetadata`: four pointers, nil being
`none`. -/
structure ContextMetadata where
  ClusterContextMetadata : Option ClusterMetadata
  RepoContextMetadata : Option RepoContextMetadata
  FileContextMetadata : Option FileContextMetadata
  DirectoryContextMetadata : Option DirectoryContextMetadata
  deriving DecidableEq

/-- The struct `reporthandlingv2.Metadata`. -/
structure Metadata where
  ScanMetadata : ScanMetadata
  ContextMetadata : ContextMetadata

/-- The zero value `&reporthandlingv2.Metadata{}`. -/
def Metadata.zero : Metadata :=
  { ScanMetadata :=
      { Format := "", FormatVersion := "", Submit := false, TargetType := "",
        TargetNames := [], KubescapeVersion := "", VerboseMode := false,
        FailThreshold := 0, HostScanner := false, ControlsInputs := "",
        ScanningTarget := ScanningTarget.Cluster },
    ContextMetadata :=
      { ClusterContextMetadata := none, RepoContextMetadata := none,
        FileContextMetadata := none, DirectoryContextMetadata := none } }

/-- The function `filepath.IsAbs` (Unix): `strings.HasPrefix(path, "/")`. -/
def IsAbs (path : String) : Bool := "/".data.isPrefixOf path.data

/-- The function `getHostname`. -/
def getHostname (env : Env) : String :=
  match env.Hostname with
  | some h => h
  | none => ""

/-- The function `setContextMetadata`. -/
def setContextMetadata (env : Env) (contextMetadata : ContextMetadata) (input : String) :
    ContextMetadata :=
  if input = "" then
    { contextMetadata with
      ClusterContextMetadata := some { ContextName := env.GetContextName } }
  else
    match env.NewGitURL input with
    | some gitParser =>
      let gitParser := if gitParser.branch = "" then env.SetDefaultBranch gitParser else gitParser
      { contextMetadata with
        RepoContextMetadata :=
          some { Repo := gitParser.repo, Owner := gitParser.owner, Branch := gitParser.branch } }
    | none =>
      let input :=
        if !IsAbs input then
          match env.Getwd with
          | some o => env.Join o input
          | none => input
        else input
      if env.IsFile input then
        { contextMetadata with
          FileContextMetadata := some { FilePath := input, HostName := getHostname env } }
      else if !env.IsFile input then
        { contextMetadata with
          DirectoryContextMetadata := some { BasePath := input, HostName := getHostname env } }
      else contextMetadata

/-- The first element of `InputPatterns`, or the empty string: the value of
`inputFiles` in `scanInfoToScanMetadata`. -/
def firstInputPattern (scanInfo : ScanInfo F) : String :=
  match scanInfo.InputPatterns with
  | [] => ""
  | p :: _ => p

/-- The function `scanInfoToScanMetadata`, assignment by assignment. -/
def scanInfoToScanMetadata (env : Env) (scanInfo : ScanInfo F) : Metadata :=
  let m := Metadata.zero.ScanMetadata
  let m := { m with Format := scanInfo.Format }
  let m := { m with FormatVersion := scanInfo.FormatVersion }
  let m := { m with Submit := scanInfo.Submit }
  let m :=
    match scanInfo.PolicyIdentifier with
    | policy :: _ => { m with TargetType := policy.Kind }
    | [] => m
  let m :=
    scanInfo.PolicyIdentifier.foldl
      (fun m policy => { m with TargetNames := m.TargetNames ++ [policy.Name] }) m
  let m := { m with KubescapeVersion := env.BuildNumber }
  let m := { m with VerboseMode := scanInfo.VerboseMode }
  let m := { m with FailThreshold := scanInfo.FailThreshold }
  let m := { m with HostScanner := scanInfo.HostSensorEnabled.GetBool }
  let m := { m with VerboseMode := scanInfo.VerboseMode }
  let m := { m with ControlsInputs := scanInfo.ControlsInputs }
  let m := { m with ScanningTarget := ScanningTarget.Cluster }
  let m :=
    if scanInfo.GetScanningEnvironment = ScanLocalFiles then
      { m with ScanningTarget := ScanningTarget.File }
    else m
  let inputFiles := firstInputPattern scanInfo
  { ScanMetadata := m,
    ContextMetadata := setContextMetadata env Metadata.zero.ContextMetadata inputFiles }

/-! ## `JsonPrinter.SetWriter` (`printer/v2/jsonprinter.go`) -/

/-- The function `unicode.IsSpace`: the white space characters of Unicode. -/
def isSpace (c : Char) : Bool :=
  c == '\t' || c == '\n' || c.toNat == 0x0B || c.toNat == 0x0C || c == '\r' || c == ' ' ||
  c.toNat == 0x85 || c.toNat == 0xA0 || c.toNat == 0x1680 ||
  (0x2000 ≤ c.toNat && c.toNat ≤ 0x200A) ||
  c.toNat == 0x2028 || c.toNat == 0x2029 || c.toNat == 0x202F || c.toNat == 0x205F ||
  c.toNat == 0x3000

/-- The function `strings.TrimSpace`: the string without its leading and
trailing white space. -/
def TrimSpace (s : String) : String :=
  ⟨((s.data.dropWhile isSpace).reverse.dropWhile isSpace).reverse⟩

def jsonOutputFile : String := "report"

def jsonOutputExt : String := ".json"

/-- The struct `JsonPrinter`; `W` is the type `*os.File` of its writer. -/
structure JsonPrinter (W : Type) where
  writer : W

/-- The value of `outputFile` that `JsonPrinter.SetWriter` passes to
`printer.GetWriter`, after its two `if` blocks. -/
def JsonPrinter.writerFileName (outputFile : String) : String :=
  let outputFile := if TrimSpace outputFile = "" then jsonOutputFile else outputFile
  if Ext (TrimSpace outputFile) ≠ jsonOutputExt then outputFile ++ jsonOutputExt
  else outputFile

/-- The method `JsonPrinter.SetWriter`; `GetWriter` is `printer.GetWriter` with
the context applied. -/
def JsonPrinter.SetWriter {W : Type} (GetWriter : String → W) (_jp : JsonPrinter W)
    (outputFile : String) : JsonPrinter W :=
  { writer := GetWriter (JsonPrinter.writerFileName outputFile) }

/-! ## Exceptions and the compliance score -/

/-- The struct `Exception` of `datastructures.go`. `MultipleScore` points to a
`float32`; it is carried as the rational number that the `float32` denotes. -/
structure Exception where
  Ignore : Option Bool
  MultipleScore : Option ℚ
  Namespaces : List String
  Regex : String

/-- An evaluated (resource, control) pair: the namespace of the resource and
whether the control passed on it. -/
structure Evaluation where
  Namespace : String
  passed : Bool
  deriving DecidableEq

/-- Modelled from the spec: the matching of an exception against a resource is
not in the available sources. An exception applies when its namespace set is
empty or contains the namespace of the resource; the pattern field never
matches. -/
def exceptionApplies (e : Exception) (ns : String) : Bool :=
  e.Namespaces.isEmpty || e.Namespaces.contains ns

/-- Modelled from the spec: the exclusion of outcomes is not in the available
sources. A failing outcome is removed from the totals when an applicable
exception has `ignore = true`; it is counted as excluded, not as passed. -/
def isIgnored (exceptions : List Exception) (ev : Evaluation) : Bool :=
  !ev.passed && exceptions.any (fun e => e.Ignore == some true && exceptionApplies e ev.Namespace)

/-- Modelled from the spec: the scaling of contributions is not in the
available sources. The contribution of an evaluation to the aggregate score is
1, scaled by the score multiplier of every applicable exception that carries
one. -/
def contributionScale (exceptions : List Exception) (ev : Evaluation) : ℚ :=
  exceptions.foldl
    (fun scale e =>
      match e.MultipleScore with
      | some m => if exceptionApplies e ev.Namespace then scale * m else scale
      | none => scale)
    1

/-- The two totals of the score: the contributions of the passing evaluations
and the contributions of all evaluations that are not ignored. -/
structure ScoreTotals where
  passing : ℚ
  total : ℚ

/-- Modelled from the spec: the accumulation of the totals is not in the
available sources. An ignored evaluation adds nothing; any other adds its
scaled contribution to the total and, when it passes, to the passing total. -/
def addEvaluation (exceptions : List Exception) (totals : ScoreTotals) (ev : Evaluation) :
    ScoreTotals :=
  if isIgnored exceptions ev then totals
  else
    { passing :=
        if ev.passed then totals.passing + contributionScale exceptions ev else totals.passing,
      total := totals.total + contributionScale exceptions ev }

/-- Modelled from the spec: rounding half up to the nearest integer. -/
def roundHalfUp (q : ℚ) : Nat := (q + 1 / 2).floor.toNat

/-- Modelled from the spec: the computation of the overall compliance score is
not in the available sources (`JsonPrinter.Score` only prints it). The score is
the passing total divided by the total of the evaluations that are not ignored,
as an integer percentage rounded half up; it is 0 when the total is 0. -/
def complianceScore (exceptions : List Exception) (evals : List Evaluation) : Nat :=
  let totals := evals.foldl (addEvaluation exceptions) { passing := 0, total := 0 }
  if totals.total = 0 then 0 else roundHalfUp (100 * totals.passing / totals.total)

/-! ## The scan sequence (`core/core/scan.go`) -/

/-- A Go `error` value, by its message; the nil error is `none` of
`Option Error`. -/
abbrev Error := String

/-- The collaborator types of `scan.go`, all declared in other packages. The
code passes their values around and calls methods on them. -/
structure CoreTypes where
  /-- The type `*k8sinterface.KubernetesApi`, without its nil value. -/
  KubernetesApi : Type
  /-- The interface `cautils.ITenantConfig`. -/
  ITenantConfig : Type
  /-- The interface `hostsensorutils.IHostSensor`. -/
  IHostSensor : Type
  /-- The interface `resourcehandler.IResourceHandler`. -/
  IResourceHandler : Type
  /-- The interface `reporter.IReport`. -/
  IReport : Type
  /-- The interface `printer.IPrinter`. -/
  IPrinter : Type
  /-- The result type of `resourcehandler.NewRegistryAdaptors`. -/
  RegistryAdaptors : Type
  /-- The struct `cautils.OPASessionObj`, the aggregation session; `scan.go`
  reads none of its fields. -/
  OPASessionObj : Type

/-- The functions and methods `scan.go` calls and whose bodies are in other
files. A field gives the result of the call; a method that acts on its
receiver is recorded as an `Event` where it is called. -/
structure Core (F : Foreign) (T : CoreTypes) where
  /-- The function `getKubernetesApi`, `none` being nil. -/
  getKubernetesApi : Option T.KubernetesApi
  /-- The function `getTenantConfig`. -/
  getTenantConfig : F.Credentials → String → Option T.KubernetesApi → T.ITenantConfig
  /-- Modelled from the spec: `setSubmitBehavior` is in a file that is not
  available; it decides whether submission to the backend is requested, and
  the field is the value it leaves in `Submit`. -/
  setSubmitBehavior : ScanInfo F → T.ITenantConfig → Bool
  /-- The method `SetTenant` of the tenant configuration. -/
  SetTenant : T.ITenantConfig → Option Error
  /-- The method `GetContextName` of the tenant configuration. -/
  GetContextName : T.ITenantConfig → String
  /-- The method `GetAccountID` of the tenant configuration. -/
  GetAccountID : T.ITenantConfig → String
  /-- The method `GetTenantEmail` of the tenant configuration. -/
  GetTenantEmail : T.ITenantConfig → String
  /-- The function `getHostSensorHandler`. -/
  getHostSensorHandler : ScanInfo F → Option T.KubernetesApi → T.IHostSensor
  /-- The value `&hostsensorutils.HostSensorHandlerMock{}`. -/
  HostSensorHandlerMock : T.IHostSensor
  /-- The method `Init` of a host-sensor collaborator. -/
  hostSensorInit : T.IHostSensor → Option Error
  /-- The method `GetNamespace` of a host-sensor collaborator. -/
  GetNamespace : T.IHostSensor → String
  /-- The method `TearDown` of a host-sensor collaborator. -/
  TearDown : T.IHostSensor → Option Error
  /-- The function `resourcehandler.NewRegistryAdaptors`. -/
  NewRegistryAdaptors : T.RegistryAdaptors × Option Error
  /-- The function `getResourceHandler`. -/
  getResourceHandler : ScanInfo F → T.ITenantConfig → Option T.KubernetesApi → T.IHostSensor →
    T.RegistryAdaptors → T.IResourceHandler
  /-- The function `getReporter`. -/
  getReporter : T.ITenantConfig → String → Bool → Bool → T.IReport
  /-- The function `resultshandling.NewPrinter`. -/
  NewPrinter : String → String → Bool → String → T.IPrinter
  /-- The function `getPolicyGetter`, applied to the released-policy downloader. -/
  getPolicyGetter : List String → String → Bool → F.IPolicyGetter
  /-- The function `getConfigInputsGetter`, applied to the same downloader. -/
  getConfigInputsGetter : String → String → F.IControlsInputsGetter
  /-- The function `getExceptionsGetter`. -/
  getExceptionsGetter : String → F.IExceptionsGetter
  /-- The function `listFrameworksNames`. -/
  listFrameworksNames : F.IPolicyGetter → List String
  /-- The constant `apisv1.KindFramework`. -/
  KindFramework : NotificationPolicyKind
  /-- The method `CollectResources` of the policy handler built on a resource
  handler: the session pointer (`none` being nil) and the error. -/
  CollectResources : T.IResourceHandler → List (PolicyIdentifier F) → ScanInfo F →
    Option T.OPASessionObj × Option Error
  /-- The method `ProcessRulesListenner` of the processor built on the session
  and on the dependencies of the given context name: the session as the
  evaluation leaves it, and the error. -/
  ProcessRulesListenner : Option T.OPASessionObj → String →
    Option T.OPASessionObj × Option Error

/-- The calls `scan.go` makes that act on a collaborator, in the order they are
made. `H` is the type of the host-sensor collaborator. -/
inductive Event (H : Type) where
  | SetTenant
  | CheckLatestVersion
  | HostSensorInit (h : H)
  | SetWriter (outputFile : String)
  | SetClusterName (name : String)
  | SetCustomerGUID (id : String)
  | CollectResources
  | ProcessRulesListenner
  | SetData
  /-- The deferred `TearDown` of the collaborator `h`, with the error it
  returned, which the code only logs. -/
  | TearDown (h : H) (err : Option Error)

/-- Whether an event is a `TearDown`. -/
def Event.isTearDown {H : Type} : Event H → Bool
  | Event.TearDown _ _ => true
  | _ => false

/-- Whether an event is `SetTenant`. -/
def Event.isSetTenant {H : Type} : Event H → Bool
  | Event.SetTenant => true
  | _ => false

/-- The struct `componentInterfaces`. -/
structure componentInterfaces (T : CoreTypes) where
  tenantConfig : T.ITenantConfig
  resourceHandler : T.IResourceHandler
  report : T.IReport
  printerHandler : T.IPrinter
  hostSensorHandler : T.IHostSensor

/-- Modelled from the spec: the struct `resultshandling.ResultsHandler` is in a
file that is not available. The results handle merges a reporter and a printer
with the aggregation session, which is attached to it by `SetData`; `none` is
a handle without session. -/
structure ResultsHandler (T : CoreTypes) where
  reporterObj : T.IReport
  printerObj : T.IPrinter
  scanData : Option T.OPASessionObj

variable {T : CoreTypes}

/-- Modelled from the spec: the function `resultshandling.NewResultsHandler`,
which builds the handle from the reporter and the printer, without session. -/
def NewResultsHandler (report : T.IReport) (printerHandler : T.IPrinter) : ResultsHandler T :=
  { reporterObj := report, printerObj := printerHandler, scanData := none }

/-- Modelled from the spec: the method `ResultsHandler.SetData`, which attaches
the session to the handle. -/
def ResultsHandler.SetData (resultsHandler : ResultsHandler T) (data : Option T.OPASessionObj) :
    ResultsHandler T :=
  { resultsHandler with scanData := data }

/-- What `getInterfaces` leaves: the interfaces it returns (`none` when it ended
the process with `Fatal`), the configuration as it mutated it, and the calls it
made. -/
structure InterfacesResult (F : Foreign) (T : CoreTypes) where
  interfaces : Option (componentInterfaces T)
  scanInfo : ScanInfo F
  events : List (Event T.IHostSensor)

/-- The host-sensor block of `getInterfaces`: the collaborator that is active
after `Init`, the mock when `Init` returned an error. -/
def activeHostSensor (C : Core F T) (hostSensorHandler : T.IHostSensor) : T.IHostSensor :=
  if (C.hostSensorInit hostSensorHandler).isSome then C.HostSensorHandlerMock
  else hostSensorHandler

/-- The block of `getInterfaces` that excludes the host-sensor namespace;
`fmt.Sprintf("%s,%s", a, b)` is `a ++ "," ++ b`. -/
def excludeHostSensorNamespace (C : Core F T) (hostSensorHandler : T.IHostSensor)
    (scanInfo : ScanInfo F) : ScanInfo F :=
  if scanInfo.IncludeNamespaces.length = 0 ∧ C.GetNamespace hostSensorHandler ≠ "" then
    { scanInfo with
      ExcludedNamespaces :=
        scanInfo.ExcludedNamespaces ++ "," ++ C.GetNamespace hostSensorHandler }
  else scanInfo

/-- The function `getInterfaces`. -/
def getInterfaces (C : Core F T) (scanInfo : ScanInfo F) : InterfacesResult F T :=
  let k8s : Option T.KubernetesApi :=
    if scanInfo.GetScanningEnvironment = ScanCluster then C.getKubernetesApi else none
  if scanInfo.GetScanningEnvironment = ScanCluster ∧ k8s.isNone then
    { interfaces := none, scanInfo := scanInfo, events := [] }
  else
    let tenantConfig := C.getTenantConfig scanInfo.Credentials scanInfo.KubeContext k8s
    let scanInfo := { scanInfo with Submit := C.setSubmitBehavior scanInfo tenantConfig }
    let scanInfo :=
      if scanInfo.InputPatterns.length > 0 then { scanInfo with Submit := false } else scanInfo
    let events : List (Event T.IHostSensor) := if scanInfo.Submit then [Event.SetTenant] else []
    let events := events ++ [Event.CheckLatestVersion]
    let hostSensorHandler := C.getHostSensorHandler scanInfo k8s
    let events := events ++ [Event.HostSensorInit hostSensorHandler]
    let hostSensorHandler := activeHostSensor C hostSensorHandler
    let scanInfo := excludeHostSensorNamespace C hostSensorHandler scanInfo
    let registryAdaptors := C.NewRegistryAdaptors.1
    let resourceHandler :=
      C.getResourceHandler scanInfo tenantConfig k8s hostSensorHandler registryAdaptors
    let reportHandler :=
      C.getReporter tenantConfig scanInfo.ScanID scanInfo.Submit scanInfo.FrameworkScan
    let printerHandler :=
      C.NewPrinter scanInfo.Format scanInfo.FormatVersion scanInfo.VerboseMode scanInfo.View
    let events := events ++ [Event.SetWriter scanInfo.Output]
    { interfaces := some
        { tenantConfig := tenantConfig, resourceHandler := resourceHandler,
          report := reportHandler, printerHandler := printerHandler,
          hostSensorHandler := hostSensorHandler },
      scanInfo := scanInfo, events := events }

/-- The value `Scan` returns: the results handle (a pointer, `none` being nil)
and the error. -/
structure ScanResult (T : CoreTypes) where
  resultsHandling : Option (ResultsHandler T)
  err : Option Error

/-- What the part of `Scan` after the `defer` statement leaves: the value it
returns and the calls it made. -/
structure BodyResult (T : CoreTypes) where
  result : ScanResult T
  events : List (Event T.IHostSensor)

/-- The part of `Scan` from `NewResultsHandler` to its last `return`. -/
def scanBody (C : Core F T) (interfaces : componentInterfaces T) (scanInfo : ScanInfo F) :
    BodyResult T :=
  let resultsHandling := NewResultsHandler interfaces.report interfaces.printerHandler
  let collected :=
    C.CollectResources interfaces.resourceHandler scanInfo.PolicyIdentifier scanInfo
  match collected.2 with
  | some err =>
    { result := { resultsHandling := some resultsHandling, err := some err },
      events := [Event.CollectResources] }
  | none =>
    let processed :=
      C.ProcessRulesListenner collected.1 (C.GetContextName interfaces.tenantConfig)
    match processed.2 with
    | some err =>
      { result := { resultsHandling := some resultsHandling, err := some err },
        events := [Event.CollectResources, Event.ProcessRulesListenner] }
    | none =>
      { result :=
          { resultsHandling := some (resultsHandling.SetData processed.1), err := none },
        events := [Event.CollectResources, Event.ProcessRulesListenner, Event.SetData] }

/-- The part of `Scan` that sets the three getters and, for `ScanAll`, expands
the policy identifiers. -/
def setGetters (C : Core F T) (interfaces : componentInterfaces T) (scanInfo : ScanInfo F) :
    ScanInfo F :=
  let scanInfo :=
    { scanInfo with
      Getters := { scanInfo.Getters with
        PolicyGetter := C.getPolicyGetter scanInfo.UseFrom
          (C.GetTenantEmail interfaces.tenantConfig) scanInfo.FrameworkScan } }
  let scanInfo :=
    { scanInfo with
      Getters := { scanInfo.Getters with
        ControlsInputsGetter := C.getConfigInputsGetter scanInfo.ControlsInputs
          (C.GetAccountID interfaces.tenantConfig) } }
  let scanInfo :=
    { scanInfo with
      Getters := { scanInfo.Getters with
        ExceptionsGetter := C.getExceptionsGetter scanInfo.UseExceptions } }
  if scanInfo.ScanAll then
    scanInfo.SetPolicyIdentifiers (C.listFrameworksNames scanInfo.Getters.PolicyGetter)
      C.KindFramework
  else scanInfo

/-- What a call of `Scan` leaves: the value it returned (`none` when the process
was ended by `Fatal` before the return), the configuration as mutated, and the
calls made on collaborators. -/
structure ScanOutcome (F : Foreign) (T : CoreTypes) where
  returned : Option (ScanResult T)
  scanInfo : ScanInfo F
  events : List (Event T.IHostSensor)

/-- The method `Kubescape.Scan`. The deferred function runs when the body
returns, after the returned value is fixed: its `TearDown` is the last call.
The two assignments to deprecated package variables are not represented. -/
def Scan (env : Env) (newString : String) (C : Core F T) (scanInfo : ScanInfo F) :
    ScanOutcome F T :=
  match scanInfo.Init env newString with
  | none => { returned := none, scanInfo := scanInfo, events := [] }
  | some scanInfo =>
    let r := getInterfaces C scanInfo
    match r.interfaces with
    | none => { returned := none, scanInfo := r.scanInfo, events := r.events }
    | some interfaces =>
      let events := r.events ++
        [Event.SetClusterName (C.GetContextName interfaces.tenantConfig),
          Event.SetCustomerGUID (C.GetAccountID interfaces.tenantConfig)]
      let scanInfo := setGetters C interfaces r.scanInfo
      let body := scanBody C interfaces scanInfo
      { returned := some body.result,
        scanInfo := scanInfo,
        events := events ++ body.events ++
          [Event.TearDown interfaces.hostSensorHandler
            (C.TearDown interfaces.hostSensorHandler)] }

/-! ## Specification-side definitions -/

/-- The distinct elements of a list in the order of their first occurrence:
the head is kept and removed from what follows. -/
def firstOccurrences : List String → List String
  | [] => []
  | x :: xs => x :: (firstOccurrences xs).filter (fun y => decide (y ≠ x))

/-- The names of a list of policy identifiers, in order. -/
def policyNames (l : List (PolicyIdentifier F)) : List String := l.map (fun p => p.Name)

/-- The cached-default paths that `setUseFrom` computes: one per policy
identifier when `UseDefault` is set, none otherwise. -/
def defaultPaths (env : Env) (scanInfo : ScanInfo F) : List String :=
  if scanInfo.UseDefault then
    scanInfo.PolicyIdentifier.map (fun policy => env.GetDefaultPath (policy.Name ++ ".json"))
  else []

/-- An entry of the directory `dir` is readable and parses as a framework
document. -/
def parsesAsFramework (env : Env) (dir name : String) : Bool :=
  match env.ReadFile (env.Join dir name) with
  | some file => env.UnmarshalFramework file
  | none => false

/-- The paths `join(dir, name)` of the entries of a listing that are readable
and parse as a framework document, in listing order. -/
def artifactPaths (env : Env) (dir : String) (files : List String) : List String :=
  (files.filter (parsesAsFramework env dir)).map (env.Join dir)

/-- The paths one call of `Init` appends to `UseFrom`: the cached-default paths,
then the paths of the parsing entries of the offline-artifact directory when
one is set and can be read. -/
def initAppended (env : Env) (scanInfo : ScanInfo F) : List String :=
  defaultPaths env scanInfo ++
    (if scanInfo.UseArtifactsFrom = "" then []
     else
      match env.ReadDir (normalizeArtifactsFrom scanInfo.UseArtifactsFrom) with
      | some files =>
        artifactPaths env (normalizeArtifactsFrom scanInfo.UseArtifactsFrom) files
      | none => [])

/-- The number of context records of a `ContextMetadata` that are set
(non-nil). -/
def ContextMetadata.countSet (c : ContextMetadata) : Nat :=
  (if c.ClusterContextMetadata.isSome then 1 else 0) +
  (if c.RepoContextMetadata.isSome then 1 else 0) +
  (if c.FileContextMetadata.isSome then 1 else 0) +
  (if c.DirectoryContextMetadata.isSome then 1 else 0)

/-- The path `setContextMetadata` tests with `IsFile`: the input itself when it
is absolute or the working directory is unknown, otherwise the input joined to
the working directory. -/
def resolvedInput (env : Env) (input : String) : String :=
  if IsAbs input then input
  else
    match env.Getwd with
    | some o => env.Join o input
    | none => input

/-- The function `strings.Split(s, ",")` on the characters of `s`: the
elements of a comma-separated list. -/
def splitComma : List Char → List (List Char)
  | [] => [[]]
  | c :: s =>
    if c = ',' then [] :: splitComma s
    else
      match splitComma s with
      | head :: rest => (c :: head) :: rest
      | [] => [[c]]

/-- A namespace is an element of a comma-separated list of namespaces. -/
def inNamespaceList (ns list : String) : Prop := ns.data ∈ splitComma list.data

instance (ns list : String) : Decidable (inNamespaceList ns list) := by
  unfold inNamespaceList
  exact inferInstance

/-! ## Concrete values used to exercise the theorems -/

/-- An instance of the foreign types in which each is the one-point type. -/
def unitForeign : Foreign where
  IExceptionsGetter := Unit
  IControlsInputsGetter := Unit
  IPolicyGetter := Unit
  Credentials := Unit
  PortalDesignator := Unit
  zeroDesignator := ()

/-- The zero value of `ScanInfo` over `unitForeign`. -/
def zeroScanInfo : ScanInfo unitForeign where
  Getters := { ExceptionsGetter := (), ControlsInputsGetter := (), PolicyGetter := () }
  PolicyIdentifier := []
  UseExceptions := ""
  ControlsInputs := ""
  UseFrom := []
  UseDefault := false
  UseArtifactsFrom := ""
  VerboseMode := false
  View := ""
  Format := ""
  Output := ""
  FormatVersion := ""
  ExcludedNamespaces := ""
  IncludeNamespaces := ""
  InputPatterns := []
  Silent := false
  FailThreshold := 0
  Submit := false
  ScanID := ""
  HostSensorEnabled := { valPtr := none }
  HostSensorYamlPath := ""
  Local := false
  Credentials := ()
  KubeContext := ""
  FrameworkScan := false
  ScanAll := false

/-- An environment with one offline-artifact directory `/artifacts` holding a
framework document, a file that does not parse and an unreadable entry. -/
def sampleEnv : Env where
  GetDefaultPath := fun name => "/cache/" ++ name
  Join := fun a b => a ++ "/" ++ b
  ReadDir := fun dir =>
    if dir = "/artifacts" then some ["nsa.json", "notes.txt", "sub"] else none
  ReadFile := fun path =>
    if path = "/artifacts/nsa.json" then some [123, 125]
    else if path = "/artifacts/notes.txt" then some [104, 105]
    else none
  UnmarshalFramework := fun file => file == [123, 125]
  BuildNumber := "v2"
  GetContextName := "minikube"
  NewGitURL := fun _ => none
  SetDefaultBranch := fun g => { g with branch := "master" }
  Getwd := some "/work"
  IsFile := fun path => path == "/work/a.yaml"
  Hostname := some "host"

/-- An environment in which every directory can be read and is empty, except
`nsa.json`, which cannot be read as a directory. -/
def bareFileEnv : Env :=
  { sampleEnv with ReadDir := fun dir => if dir = "nsa.json" then none else some [] }

/-- A policy identifier over `unitForeign`. -/
def mkPolicy (name : String) (kind : NotificationPolicyKind) : PolicyIdentifier unitForeign :=
  { Name := name, Kind := kind, Designators := () }

/-- Eight evaluated pairs, six passing and two failing, the failing ones in the
namespaces `prod` and `dev`. -/
def eightEvaluations : List Evaluation :=
  [⟨"prod", true⟩, ⟨"prod", true⟩, ⟨"dev", true⟩, ⟨"dev", true⟩, ⟨"default", true⟩,
    ⟨"default", true⟩, ⟨"prod", false⟩, ⟨"dev", false⟩]

/-- An exception with `ignore = true` for the namespace `prod`. -/
def ignoreProd : Exception :=
  { Ignore := some true, MultipleScore := none, Namespaces := ["prod"], Regex := "" }

/-- Collaborator types for the examples: a host-sensor collaborator is named by
its namespace, a session by a label. -/
def sampleTypes : CoreTypes where
  KubernetesApi := Unit
  ITenantConfig := Unit
  IHostSensor := String
  IResourceHandler := Unit
  IReport := Unit
  IPrinter := Unit
  RegistryAdaptors := Unit
  OPASessionObj := String

/-- Collaborators for the examples: a reachable cluster, a host sensor that is
provisioned in the namespace `host-scanner`, and stages that succeed. -/
def sampleCore : Core unitForeign sampleTypes where
  getKubernetesApi := some ()
  getTenantConfig := fun _ _ _ => ()
  setSubmitBehavior := fun _ _ => true
  SetTenant := fun _ => none
  GetContextName := fun _ => "minikube"
  GetAccountID := fun _ => "account"
  GetTenantEmail := fun _ => ""
  getHostSensorHandler := fun _ _ => "host-scanner"
  HostSensorHandlerMock := ""
  hostSensorInit := fun _ => none
  GetNamespace := fun h => h
  TearDown := fun _ => none
  NewRegistryAdaptors := ((), none)
  getResourceHandler := fun _ _ _ _ _ => ()
  getReporter := fun _ _ _ _ => ()
  NewPrinter := fun _ _ _ _ => ()
  getPolicyGetter := fun _ _ _ => ()
  getConfigInputsGetter := fun _ _ => ()
  getExceptionsGetter := fun _ => ()
  listFrameworksNames := fun _ => ["nsa", "mitre"]
  KindFramework := "Framework"
  CollectResources := fun _ _ _ => (some "session", none)
  ProcessRulesListenner := fun d _ => (d, none)

/-- The collaborators of `sampleCore` with a rule evaluation that fails. -/
def failingRulesCore : Core unitForeign sampleTypes :=
  { sampleCore with ProcessRulesListenner := fun d _ => (d, some "rules failed") }

/-- The collaborators of `sampleCore` with a host sensor whose `Init` fails and
a `TearDown` that returns an error. -/
def failingSensorCore : Core unitForeign sampleTypes :=
  { sampleCore with
    hostSensorInit := fun (h : String) => if h = "" then none else some "init failed",
    TearDown := fun _ => some "teardown failed" }

/-- The interfaces that `getInterfaces` returns over `sampleCore`. -/
def sampleInterfaces : componentInterfaces sampleTypes :=
  { tenantConfig := (), resourceHandler := (), report := (), printerHandler := (),
    hostSensorHandler := "host-scanner" }

/-- An exception that doubles the score contribution in the namespace `prod`. -/
def doubleProd : Exception :=
  { Ignore := none, MultipleScore := some 2, Namespaces := ["prod"], Regex := "" }

/-! ## Theorems -/

theorem scanLocalFiles_ne_scanCluster : ScanLocalFiles ≠ ScanCluster := by decide

/-- C1: `GetScanningEnvironment` returns `ScanLocalFiles` exactly when
`InputPatterns` has at least one element and `ScanCluster` exactly when it has
none, and two configurations with the same `InputPatterns` give the same
result whatever their other fields hold. -/
theorem getScanningEnvironment_spec (s : ScanInfo F) :
    (s.GetScanningEnvironment = ScanLocalFiles ↔ 1 ≤ s.InputPatterns.length) ∧
    (s.GetScanningEnvironment = ScanCluster ↔ s.InputPatterns.length = 0) ∧
    (∀ t : ScanInfo F, t.InputPatterns = s.InputPatterns →
      t.GetScanningEnvironment = s.GetScanningEnvironment) := by
  refine ⟨?_, ?_, ?_⟩
  · unfold ScanInfo.GetScanningEnvironment
    by_cases h : s.InputPatterns.length = 0
    · simp [h, scanLocalFiles_ne_scanCluster.symm]
    · simp [h]; omega
  · unfold ScanInfo.GetScanningEnvironment
    by_cases h : s.InputPatterns.length = 0
    · simp [h]
    · simp [h, scanLocalFiles_ne_scanCluster]
  · intro t ht
    unfold ScanInfo.GetScanningEnvironment
    rw [ht]

/-- Witness of C1 at a configuration with one input pattern, compared with a
configuration that differs in `Submit`. -/
theorem getScanningEnvironment_spec_witness :
    ({ zeroScanInfo with InputPatterns := ["a.yaml"], Submit := true } :
        ScanInfo unitForeign).GetScanningEnvironment =
      ({ zeroScanInfo with InputPatterns := ["a.yaml"] } :
        ScanInfo unitForeign).GetScanningEnvironment :=
  (getScanningEnvironment_spec
      ({ zeroScanInfo with InputPatterns := ["a.yaml"] } : ScanInfo unitForeign)).2.2
    { zeroScanInfo with InputPatterns := ["a.yaml"], Submit := true } rfl

/-! ### `SetPolicyIdentifiers` -/

theorem containsLoop_iff (l : List (PolicyIdentifier F)) (n : String) :
    containsLoop l n = true ↔ n ∈ policyNames l := by
  induction l with
  | nil => simp [containsLoop, policyNames]
  | cons p ps ih =>
    unfold containsLoop
    by_cases h : p.Name = n
    · simp [h, policyNames]
    · have h2 : ¬ n = p.Name := fun e => h e.symm
      simp [h, ih, policyNames, h2]

theorem mem_firstOccurrences (l : List String) (x : String) :
    x ∈ firstOccurrences l ↔ x ∈ l := by
  induction l with
  | nil => simp [firstOccurrences]
  | cons y ys ih =>
    by_cases h : x = y
    · simp [firstOccurrences, h]
    · simp [firstOccurrences, ih, h]

theorem firstOccurrences_nodup (l : List String) : (firstOccurrences l).Nodup := by
  induction l with
  | nil => simp [firstOccurrences]
  | cons y ys ih =>
    simp only [firstOccurrences, List.nodup_cons]
    exact ⟨by simp [List.mem_filter], ih.filter _⟩

theorem firstOccurrences_filter (p : String → Bool) (l : List String) :
    (firstOccurrences l).filter p = firstOccurrences (l.filter p) := by
  induction l with
  | nil => simp [firstOccurrences]
  | cons y ys ih =>
    by_cases h : p y = true
    · simp only [firstOccurrences, List.filter_cons, h, if_true]
      rw [List.filter_filter, ← ih, List.filter_filter]
      congr 1
      apply List.filter_congr
      intro x _
      exact Bool.and_comm _ _
    · have h' : p y = false := by simpa using h
      simp only [firstOccurrences, List.filter_cons, h', Bool.false_eq_true, if_false]
      rw [List.filter_filter, ← ih]
      apply List.filter_congr
      intro x _
      by_cases hxy : x = y
      · subst hxy
        simp [h']
      · simp [hxy]

theorem foldl_setPolicyStep (kind : NotificationPolicyKind) (names : List String)
    (s : ScanInfo F) :
    names.foldl (setPolicyStep kind) s =
      { s with
        PolicyIdentifier := s.PolicyIdentifier ++
          (firstOccurrences
              (names.filter (fun n => decide (n ∉ policyNames s.PolicyIdentifier)))).map
            (fun n => { Name := n, Kind := kind, Designators := F.zeroDesignator }) } := by
  induction names generalizing s with
  | nil => simp [firstOccurrences]
  | cons x xs ih =>
    rw [List.foldl_cons, ih]
    by_cases hx : x ∈ policyNames s.PolicyIdentifier
    · have hc : s.contains x = true := (containsLoop_iff _ _).2 hx
      have hs : setPolicyStep kind s x = s := by simp [setPolicyStep, hc]
      rw [hs]
      simp [List.filter_cons, hx]
    · have hc : s.contains x = false := by
        cases h : s.contains x with
        | false => rfl
        | true => exact absurd ((containsLoop_iff _ _).1 h) hx
      have hs : setPolicyStep kind s x =
          { s with PolicyIdentifier := s.PolicyIdentifier ++
              [{ Name := x, Kind := kind, Designators := F.zeroDesignator }] } := by
        simp [setPolicyStep, hc]
      rw [hs]
      have hf : xs.filter (fun n => decide (n ∉ policyNames (s.PolicyIdentifier ++
            [({ Name := x, Kind := kind, Designators := F.zeroDesignator } :
              PolicyIdentifier F)]))) =
          (xs.filter (fun n => decide (n ∉ policyNames s.PolicyIdentifier))).filter
            (fun y => decide (y ≠ x)) := by
        rw [List.filter_filter]
        apply List.filter_congr
        intro n _
        rw [Bool.eq_iff_iff]
        simp only [policyNames, List.map_append, List.map_cons, List.map_nil, List.mem_append,
          List.mem_singleton, Bool.and_eq_true, decide_eq_true_eq, not_or, and_comm]
      simp only [hf, List.filter_cons, hx, not_false_eq_true, decide_True, if_true,
        firstOccurrences, List.map_cons, ← firstOccurrences_filter]
      simp

/-- C2: `SetPolicyIdentifiers` keeps the existing entries as a prefix and appends
one entry `(name, kind)` for each argument name that is not already present by
name, in first-occurrence order and without repetition; every other field is
unchanged, so a name already present keeps its entry and its kind. -/
theorem setPolicyIdentifiers_spec (s : ScanInfo F) (names : List String)
    (kind : NotificationPolicyKind) :
    s.SetPolicyIdentifiers names kind =
      { s with
        PolicyIdentifier := s.PolicyIdentifier ++
          (firstOccurrences
              (names.filter (fun n => decide (n ∉ policyNames s.PolicyIdentifier)))).map
            (fun n => { Name := n, Kind := kind, Designators := F.zeroDesignator }) } ∧
    (firstOccurrences
        (names.filter (fun n => decide (n ∉ policyNames s.PolicyIdentifier)))).Nodup ∧
    (∀ n, n ∈ firstOccurrences
        (names.filter (fun n => decide (n ∉ policyNames s.PolicyIdentifier))) ↔
      (n ∈ names ∧ n ∉ policyNames s.PolicyIdentifier)) := by
  refine ⟨foldl_setPolicyStep kind names s, firstOccurrences_nodup _, ?_⟩
  intro n
  rw [mem_firstOccurrences]
  simp [List.mem_filter]

/-- C3: if the names in `PolicyIdentifier` are pairwise distinct before
`SetPolicyIdentifiers` they are pairwise distinct after it, for every argument
list; and when every argument name is already present the configuration is
returned unchanged. -/
theorem setPolicyIdentifiers_nodup (s : ScanInfo F) (names : List String)
    (kind : NotificationPolicyKind) :
    ((policyNames s.PolicyIdentifier).Nodup →
      (policyNames (s.SetPolicyIdentifiers names kind).PolicyIdentifier).Nodup) ∧
    ((∀ n ∈ names, n ∈ policyNames s.PolicyIdentifier) →
      s.SetPolicyIdentifiers names kind = s) := by
  constructor
  · intro hnd
    unfold ScanInfo.SetPolicyIdentifiers
    rw [foldl_setPolicyStep]
    simp only [policyNames, List.map_append, List.map_map]
    have hm : (List.map ((fun p : PolicyIdentifier F => p.Name) ∘
        fun n => { Name := n, Kind := kind, Designators := F.zeroDesignator })
        (firstOccurrences (names.filter
          (fun n => decide (n ∉ List.map (fun p => p.Name) s.PolicyIdentifier))))) =
        firstOccurrences (names.filter
          (fun n => decide (n ∉ List.map (fun p => p.Name) s.PolicyIdentifier))) := by
      simp [Function.comp_def]
    rw [hm, List.nodup_append]
    refine ⟨hnd, firstOccurrences_nodup _, ?_⟩
    intro a ha hb
    rw [mem_firstOccurrences, List.mem_filter] at hb
    simp only [decide_eq_true_eq] at hb
    exact hb.2 ha
  · intro hall
    unfold ScanInfo.SetPolicyIdentifiers
    rw [foldl_setPolicyStep]
    have hf : names.filter (fun n => decide (n ∉ policyNames s.PolicyIdentifier)) = [] := by
      rw [List.filter_eq_nil_iff]
      intro a ha
      simp [hall a ha]
    rw [hf]
    simp [firstOccurrences]

/-- Witness of C3: one name present with another kind, one new name given
twice; and an argument list whose only name is already present. -/
theorem setPolicyIdentifiers_nodup_witness :
    ((policyNames ({ zeroScanInfo with PolicyIdentifier := [mkPolicy "nsa" "Framework"] } :
        ScanInfo unitForeign).PolicyIdentifier).Nodup ∧
      (policyNames (({ zeroScanInfo with PolicyIdentifier := [mkPolicy "nsa" "Framework"] } :
        ScanInfo unitForeign).SetPolicyIdentifiers ["nsa", "mitre", "mitre"]
          "Control").PolicyIdentifier).Nodup) ∧
    ((∀ n ∈ ["nsa"], n ∈ policyNames ({ zeroScanInfo with
        PolicyIdentifier := [mkPolicy "nsa" "Framework"] } :
          ScanInfo unitForeign).PolicyIdentifier) ∧
      ({ zeroScanInfo with PolicyIdentifier := [mkPolicy "nsa" "Framework"] } :
        ScanInfo unitForeign).SetPolicyIdentifiers ["nsa"] "Control" =
      { zeroScanInfo with PolicyIdentifier := [mkPolicy "nsa" "Framework"] }) :=
  ⟨⟨by decide, (setPolicyIdentifiers_nodup _ _ _).1 (by decide)⟩,
   ⟨by decide, (setPolicyIdentifiers_nodup _ _ _).2 (by decide)⟩⟩

/-! ### `setOutputFile` -/

theorem setOutputExt_of_format (format ext : String) (s : ScanInfo F) (h : s.Format = format) :
    setOutputExt format ext s =
      { s with Output := if Ext s.Output = ext then s.Output else s.Output ++ ext } := by
  unfold setOutputExt
  rw [if_pos h]
  by_cases he : Ext s.Output = ext
  · rw [if_neg (not_not.2 he), if_pos he]
  · rw [if_pos he, if_neg he]

theorem setOutputExt_of_ne (format ext : String) (s : ScanInfo F) (h : s.Format ≠ format) :
    setOutputExt format ext s = s := by
  simp [setOutputExt, h]

/-- C4: for a non-empty `Output`, `setOutputFile` with format `json`, `junit` or
`pdf` leaves the configuration unchanged when the extension of `Output` already
is `.json`, `.xml` or `.pdf` respectively and otherwise appends that extension
to `Output`; the output `report` becomes `report.json` under `json` and
`report.xml` under `junit`. -/
theorem setOutputFile_spec (s : ScanInfo F) (h : s.Output ≠ "") :
    (s.Format = "json" → s.setOutputFile =
      { s with Output := if Ext s.Output = ".json" then s.Output else s.Output ++ ".json" }) ∧
    (s.Format = "junit" → s.setOutputFile =
      { s with Output := if Ext s.Output = ".xml" then s.Output else s.Output ++ ".xml" }) ∧
    (s.Format = "pdf" → s.setOutputFile =
      { s with Output := if Ext s.Output = ".pdf" then s.Output else s.Output ++ ".pdf" }) ∧
    (s.Output = "report" → s.Format = "json" → s.setOutputFile.Output = "report.json") ∧
    (s.Output = "report" → s.Format = "junit" → s.setOutputFile.Output = "report.xml") := by
  have hjson : s.Format = "json" → s.setOutputFile =
      { s with Output := if Ext s.Output = ".json" then s.Output else s.Output ++ ".json" } := by
    intro hf
    unfold ScanInfo.setOutputFile
    rw [if_neg h]
    simp only []
    rw [setOutputExt_of_format "json" ".json" s hf,
      setOutputExt_of_ne "junit" ".xml" _ (by show s.Format ≠ "junit"; rw [hf]; decide),
      setOutputExt_of_ne "pdf" ".pdf" _ (by show s.Format ≠ "pdf"; rw [hf]; decide)]
  have hjunit : s.Format = "junit" → s.setOutputFile =
      { s with Output := if Ext s.Output = ".xml" then s.Output else s.Output ++ ".xml" } := by
    intro hf
    unfold ScanInfo.setOutputFile
    rw [if_neg h]
    simp only []
    rw [setOutputExt_of_ne "json" ".json" s (by rw [hf]; decide),
      setOutputExt_of_format "junit" ".xml" s hf,
      setOutputExt_of_ne "pdf" ".pdf" _ (by show s.Format ≠ "pdf"; rw [hf]; decide)]
  have hpdf : s.Format = "pdf" → s.setOutputFile =
      { s with Output := if Ext s.Output = ".pdf" then s.Output else s.Output ++ ".pdf" } := by
    intro hf
    unfold ScanInfo.setOutputFile
    rw [if_neg h]
    simp only []
    rw [setOutputExt_of_ne "json" ".json" s (by rw [hf]; decide),
      setOutputExt_of_ne "junit" ".xml" s (by rw [hf]; decide),
      setOutputExt_of_format "pdf" ".pdf" s hf]
  refine ⟨hjson, hjunit, hpdf, ?_, ?_⟩
  · intro ho hf
    rw [hjson hf, ho]
    show (if Ext "report" = ".json" then "report" else "report" ++ ".json") = "report.json"
    decide
  · intro ho hf
    rw [hjunit hf, ho]
    show (if Ext "report" = ".xml" then "report" else "report" ++ ".xml") = "report.xml"
    decide

/-- Witness of C4 at the output `report` with format `json`. -/
theorem setOutputFile_spec_witness :
    ({ zeroScanInfo with Output := "report", Format := "json" } :
      ScanInfo unitForeign).setOutputFile.Output = "report.json" :=
  (setOutputFile_spec ({ zeroScanInfo with Output := "report", Format := "json" } :
    ScanInfo unitForeign) (by decide)).2.2.2.1 rfl rfl

/-! ### `filepath.Split` and the normalization of `UseArtifactsFrom` -/

theorem isPathSeparator_iff (c : Char) : IsPathSeparator c = true ↔ c = '/' := by
  simp [IsPathSeparator]

theorem splitLoop_spec (before after : List Char) :
    (splitLoop before after).1 ++ (splitLoop before after).2 = before.reverse ++ after ∧
    ((splitLoop before after).1 = [] ∨ ∃ d, (splitLoop before after).1 = d ++ ['/']) ∧
    (∃ pre, (splitLoop before after).2 = pre ++ after ∧ '/' ∉ pre) := by
  induction before generalizing after with
  | nil => exact ⟨rfl, Or.inl rfl, [], rfl, by simp⟩
  | cons c b ih =>
    unfold splitLoop
    by_cases hc : IsPathSeparator c = true
    · rw [if_pos hc]
      have hc' : c = '/' := (isPathSeparator_iff c).1 hc
      refine ⟨rfl, Or.inr ⟨b.reverse, by simp [hc']⟩, [], rfl, by simp⟩
    · rw [if_neg hc]
      obtain ⟨h1, h2, pre, h3, h4⟩ := ih (c :: after)
      refine ⟨by rw [h1]; simp, h2, pre ++ [c], by rw [h3]; simp, ?_⟩
      intro hmem
      rcases List.mem_append.1 hmem with hm | hm
      · exact h4 hm
      · have : c = '/' := by simpa using (List.mem_singleton.1 hm).symm
        exact hc ((isPathSeparator_iff c).2 this)

theorem split_append (p : String) : (Split p).1 ++ (Split p).2 = p := by
  apply String.ext
  rw [String.data_append]
  show (splitLoop p.data.reverse []).1 ++ (splitLoop p.data.reverse []).2 = p.data
  rw [(splitLoop_spec p.data.reverse []).1]
  simp

theorem split_fst_cases (p : String) :
    (Split p).1 = "" ∨ ∃ d, (Split p).1.data = d ++ ['/'] := by
  rcases (splitLoop_spec p.data.reverse []).2.1 with h | ⟨d, h⟩
  · left
    apply String.ext
    exact h
  · exact Or.inr ⟨d, h⟩

theorem split_snd_no_separator (p : String) : '/' ∉ (Split p).2.data := by
  obtain ⟨pre, h1, h2⟩ := (splitLoop_spec p.data.reverse []).2.2
  show '/' ∉ (splitLoop p.data.reverse []).2
  rw [h1]
  simpa using h2

theorem split_of_trailing_separator (p : String) (d : List Char) (h : p.data = d ++ ['/']) :
    Split p = (p, "") := by
  have hr : p.data.reverse = '/' :: d.reverse := by rw [h]; simp
  have hl : splitLoop p.data.reverse [] = (p.data, []) := by
    rw [hr]
    unfold splitLoop
    rw [if_pos (by decide)]
    rw [← hr, List.reverse_reverse]
  unfold Split
  simp only [hl]

theorem normalizeArtifactsFrom_eq (p : String) :
    normalizeArtifactsFrom p =
      if (Split p).1 = "" then (Split p).2
      else if Contains (Split p).2 ".json" = true then (Split p).1 else p := rfl

theorem normalizeArtifactsFrom_cases (p : String) :
    normalizeArtifactsFrom p = p ∨ ∃ d, (normalizeArtifactsFrom p).data = d ++ ['/'] := by
  rw [normalizeArtifactsFrom_eq]
  by_cases h1 : (Split p).1 = ""
  · rw [if_pos h1]
    left
    have := split_append p
    rw [h1] at this
    simpa using this
  · rw [if_neg h1]
    by_cases h2 : Contains (Split p).2 ".json" = true
    · rw [if_pos h2]
      rcases split_fst_cases p with h | h
      · exact absurd h h1
      · exact Or.inr h
    · rw [if_neg h2]
      exact Or.inl rfl

theorem normalizeArtifactsFrom_of_trailing_separator (p : String) (d : List Char)
    (h : p.data = d ++ ['/']) : normalizeArtifactsFrom p = p := by
  rw [normalizeArtifactsFrom_eq, split_of_trailing_separator p d h]
  have hne : p ≠ "" := by
    intro e
    rw [e] at h
    simp at h
  simp only [hne, if_false]
  have hc : Contains "" ".json" = false := by decide
  rw [hc]
  simp

theorem normalizeArtifactsFrom_idem (p : String) :
    normalizeArtifactsFrom (normalizeArtifactsFrom p) = normalizeArtifactsFrom p := by
  rcases normalizeArtifactsFrom_cases p with h | ⟨d, h⟩
  · rw [h, h]
  · exact normalizeArtifactsFrom_of_trailing_separator _ d h

theorem normalizeArtifactsFrom_ne_empty (p : String) (hp : p ≠ "") :
    normalizeArtifactsFrom p ≠ "" := by
  rcases normalizeArtifactsFrom_cases p with h | ⟨d, h⟩
  · rw [h]
    exact hp
  · intro e
    rw [e] at h
    simp at h

/-! ### `setUseFrom`, `setUseArtifactsFrom`, `Init` -/

theorem foldl_useFrom (env : Env) (l : List (PolicyIdentifier F)) (s : ScanInfo F) :
    l.foldl
        (fun si policy =>
          { si with UseFrom := si.UseFrom ++ [env.GetDefaultPath (policy.Name ++ ".json")] })
        s =
      { s with
        UseFrom := s.UseFrom ++ l.map (fun policy => env.GetDefaultPath (policy.Name ++ ".json")) } := by
  induction l generalizing s with
  | nil => simp
  | cons p ps ih =>
    rw [List.foldl_cons, ih]
    simp

theorem setUseFrom_eq (env : Env) (s : ScanInfo F) :
    s.setUseFrom env = { s with UseFrom := s.UseFrom ++ defaultPaths env s } := by
  unfold ScanInfo.setUseFrom defaultPaths
  by_cases h : s.UseDefault = true
  · rw [if_pos h, if_pos h, foldl_useFrom]
  · rw [if_neg h, if_neg h]
    simp

theorem setOutputExt_eq (format ext : String) (s : ScanInfo F) :
    setOutputExt format ext s = { s with Output := (setOutputExt format ext s).Output } := by
  unfold setOutputExt
  split_ifs <;> rfl

theorem setOutputFile_eq (s : ScanInfo F) :
    s.setOutputFile = { s with Output := s.setOutputFile.Output } := by
  unfold ScanInfo.setOutputFile
  by_cases h : s.Output = ""
  · rw [if_pos h]
  · rw [if_neg h]
    simp only []
    rw [setOutputExt_eq "pdf", setOutputExt_eq "junit", setOutputExt_eq "json"]

theorem foldl_artifactsStep (env : Env) (files : List String) (s : ScanInfo F) :
    files.foldl (artifactsStep env) s =
      { s with UseFrom := s.UseFrom ++ artifactPaths env s.UseArtifactsFrom files } := by
  induction files generalizing s with
  | nil => simp [artifactPaths]
  | cons f fs ih =>
    rw [List.foldl_cons, ih]
    unfold artifactsStep artifactPaths parsesAsFramework
    cases hr : env.ReadFile (env.Join s.UseArtifactsFrom f) with
    | none => simp [List.filter_cons, parsesAsFramework, hr]
    | some file =>
      by_cases hu : env.UnmarshalFramework file = true
      · simp [List.filter_cons, parsesAsFramework, hr, hu]
      · simp [List.filter_cons, parsesAsFramework, hr, hu]

theorem setUseArtifactsFrom_of_empty (env : Env) (s : ScanInfo F) (h : s.UseArtifactsFrom = "") :
    s.setUseArtifactsFrom env = some s := by
  simp [ScanInfo.setUseArtifactsFrom, h]

theorem setUseArtifactsFrom_of_readDir (env : Env) (s : ScanInfo F) (files : List String)
    (h : s.UseArtifactsFrom ≠ "")
    (hr : env.ReadDir (normalizeArtifactsFrom s.UseArtifactsFrom) = some files) :
    s.setUseArtifactsFrom env =
      some { s with
        UseArtifactsFrom := normalizeArtifactsFrom s.UseArtifactsFrom,
        UseFrom := s.UseFrom ++
          artifactPaths env (normalizeArtifactsFrom s.UseArtifactsFrom) files,
        ControlsInputs :=
          env.Join (normalizeArtifactsFrom s.UseArtifactsFrom) localControlInputsFilename,
        UseExceptions :=
          env.Join (normalizeArtifactsFrom s.UseArtifactsFrom) localExceptionsFilename } := by
  unfold ScanInfo.setUseArtifactsFrom
  rw [if_neg h]
  simp only [hr, foldl_artifactsStep]

theorem setUseArtifactsFrom_of_readDir_error (env : Env) (s : ScanInfo F)
    (h : s.UseArtifactsFrom ≠ "")
    (hr : env.ReadDir (normalizeArtifactsFrom s.UseArtifactsFrom) = none) :
    s.setUseArtifactsFrom env = none := by
  unfold ScanInfo.setUseArtifactsFrom
  rw [if_neg h]
  simp only [hr]

theorem init_of_empty (env : Env) (u : String) (s : ScanInfo F)
    (h : s.UseArtifactsFrom = "") :
    ∃ o, s.Init env u =
      some { s with
        UseFrom := s.UseFrom ++ defaultPaths env s,
        Output := o,
        ScanID := if s.ScanID = "" then u else s.ScanID } := by
  refine ⟨(s.setUseFrom env).setOutputFile.Output, ?_⟩
  unfold ScanInfo.Init
  simp only []
  rw [setOutputFile_eq (s.setUseFrom env), setUseFrom_eq,
    setUseArtifactsFrom_of_empty env _ (by exact h)]
  by_cases hid : s.ScanID = ""
  · simp [hid]
  · simp [hid]

theorem init_of_readDir (env : Env) (u : String) (s : ScanInfo F) (files : List String)
    (h : s.UseArtifactsFrom ≠ "")
    (hr : env.ReadDir (normalizeArtifactsFrom s.UseArtifactsFrom) = some files) :
    ∃ o, s.Init env u =
      some { s with
        UseFrom := s.UseFrom ++ defaultPaths env s ++
          artifactPaths env (normalizeArtifactsFrom s.UseArtifactsFrom) files,
        Output := o,
        UseArtifactsFrom := normalizeArtifactsFrom s.UseArtifactsFrom,
        ControlsInputs :=
          env.Join (normalizeArtifactsFrom s.UseArtifactsFrom) localControlInputsFilename,
        UseExceptions :=
          env.Join (normalizeArtifactsFrom s.UseArtifactsFrom) localExceptionsFilename,
        ScanID := if s.ScanID = "" then u else s.ScanID } := by
  refine ⟨(s.setUseFrom env).setOutputFile.Output, ?_⟩
  unfold ScanInfo.Init
  simp only []
  rw [setOutputFile_eq (s.setUseFrom env), setUseFrom_eq,
    setUseArtifactsFrom_of_readDir env _ files (by exact h) (by exact hr)]
  by_cases hid : s.ScanID = ""
  · simp [hid]
  · simp [hid]

theorem init_of_readDir_error (env : Env) (u : String) (s : ScanInfo F)
    (h : s.UseArtifactsFrom ≠ "")
    (hr : env.ReadDir (normalizeArtifactsFrom s.UseArtifactsFrom) = none) :
    s.Init env u = none := by
  unfold ScanInfo.Init
  simp only []
  rw [setOutputFile_eq (s.setUseFrom env), setUseFrom_eq,
    setUseArtifactsFrom_of_readDir_error env _ (by exact h) (by exact hr)]

/-- What a returning call of `Init` leaves in the fields that the later
theorems read. -/
theorem init_fields (env : Env) (u : String) (s s1 : ScanInfo F) (h1 : s.Init env u = some s1) :
    s1.UseFrom = s.UseFrom ++ initAppended env s ∧
    s1.ScanID = (if s.ScanID = "" then u else s.ScanID) ∧
    s1.UseDefault = s.UseDefault ∧
    s1.PolicyIdentifier = s.PolicyIdentifier ∧
    s1.UseArtifactsFrom =
      (if s.UseArtifactsFrom = "" then "" else normalizeArtifactsFrom s.UseArtifactsFrom) ∧
    (s.UseArtifactsFrom ≠ "" →
      ∃ files, env.ReadDir (normalizeArtifactsFrom s.UseArtifactsFrom) = some files) := by
  by_cases hA : s.UseArtifactsFrom = ""
  · obtain ⟨o, ho⟩ := init_of_empty env u s hA
    rw [ho] at h1
    cases h1
    simp [initAppended, hA]
  · cases hr : env.ReadDir (normalizeArtifactsFrom s.UseArtifactsFrom) with
    | none =>
      rw [init_of_readDir_error env u s hA hr] at h1
      cases h1
    | some files =>
      obtain ⟨o, ho⟩ := init_of_readDir env u s files hA hr
      rw [ho] at h1
      cases h1
      simp [initAppended, hA, hr]

/-- A call of `Init` on the result of a returning call, in the same
environment, returns as well. -/
theorem init_again (env : Env) (u u2 : String) (s s1 : ScanInfo F)
    (h1 : s.Init env u = some s1) :
    ∃ s2, s1.Init env u2 = some s2 ∧ initAppended env s1 = initAppended env s := by
  obtain ⟨_, _, hd, hp, ha, hr⟩ := init_fields env u s s1 h1
  have hdef : defaultPaths env s1 = defaultPaths env s := by
    unfold defaultPaths
    rw [hd, hp]
  by_cases hA : s.UseArtifactsFrom = ""
  · have hA1 : s1.UseArtifactsFrom = "" := by rw [ha, if_pos hA]
    obtain ⟨o, ho⟩ := init_of_empty env u2 s1 hA1
    exact ⟨_, ho, by simp [initAppended, hA, hA1, hdef]⟩
  · have hA1 : s1.UseArtifactsFrom = normalizeArtifactsFrom s.UseArtifactsFrom := by
      rw [ha, if_neg hA]
    have hne : s1.UseArtifactsFrom ≠ "" := by
      rw [hA1]
      exact normalizeArtifactsFrom_ne_empty _ hA
    have hn : normalizeArtifactsFrom s1.UseArtifactsFrom =
        normalizeArtifactsFrom s.UseArtifactsFrom := by
      rw [hA1, normalizeArtifactsFrom_idem]
    obtain ⟨files, hf⟩ := hr hA
    obtain ⟨o, ho⟩ := init_of_readDir env u2 s1 files hne (by rw [hn]; exact hf)
    exact ⟨_, ho, by simp [initAppended, hA, hne, hn, hdef]⟩

/-- C5: with no offline-artifact directory `Init` returns; with `UseDefault` set
it appends to `UseFrom`, after the previous entries, exactly one path per
policy identifier, the i-th being `GetDefaultPath(name + ".json")` of the i-th
identifier; with `UseDefault` unset it appends none (and `setUseFrom` changes
nothing at all). -/
theorem init_useDefault (env : Env) (u : String) (s : ScanInfo F)
    (hA : s.UseArtifactsFrom = "") :
    ∃ s1, s.Init env u = some s1 ∧
      (s.UseDefault = true →
        s1.UseFrom = s.UseFrom ++
            s.PolicyIdentifier.map (fun policy => env.GetDefaultPath (policy.Name ++ ".json")) ∧
          s1.UseFrom.length = s.UseFrom.length + s.PolicyIdentifier.length) ∧
      (s.UseDefault = false → s1.UseFrom = s.UseFrom ∧ s.setUseFrom env = s) := by
  obtain ⟨o, ho⟩ := init_of_empty env u s hA
  refine ⟨_, ho, ?_, ?_⟩
  · intro hd
    simp [defaultPaths, hd]
  · intro hd
    refine ⟨by simp [defaultPaths, hd], ?_⟩
    simp [ScanInfo.setUseFrom, hd]

/-- Witness of C5 at a configuration with `UseDefault` set, one previous
`UseFrom` entry and two policy identifiers. -/
theorem init_useDefault_witness :
    ∃ s1, ({ zeroScanInfo with
        UseDefault := true, UseFrom := ["local.json"],
        PolicyIdentifier := [mkPolicy "nsa" "Framework", mkPolicy "mitre" "Framework"] } :
          ScanInfo unitForeign).Init sampleEnv "id" = some s1 ∧
      s1.UseFrom = ["local.json", "/cache/nsa.json", "/cache/mitre.json"] := by
  obtain ⟨s1, h1, h2, _⟩ := init_useDefault sampleEnv "id"
    ({ zeroScanInfo with
        UseDefault := true, UseFrom := ["local.json"],
        PolicyIdentifier := [mkPolicy "nsa" "Framework", mkPolicy "mitre" "Framework"] } :
          ScanInfo unitForeign) rfl
  exact ⟨s1, h1, by rw [(h2 rfl).1]; decide⟩

/-- C6: a returning call of `Init` leaves a non-empty `ScanID` unchanged and
replaces an empty one by the generated token; when that token is non-empty a
further call of `Init` on the result keeps the `ScanID` in whatever environment
and with whatever new token it runs, and in the same environment it returns. -/
theorem init_scanID (env : Env) (u1 : String) (s s1 : ScanInfo F)
    (h1 : s.Init env u1 = some s1) :
    (s.ScanID ≠ "" → s1.ScanID = s.ScanID) ∧
    (s.ScanID = "" → s1.ScanID = u1) ∧
    (u1 ≠ "" →
      (∀ (env2 : Env) (u2 : String) (s2 : ScanInfo F),
        s1.Init env2 u2 = some s2 → s2.ScanID = s1.ScanID) ∧
      (∀ u2 : String, ∃ s2, s1.Init env u2 = some s2 ∧ s2.ScanID = s1.ScanID)) := by
  have hid := (init_fields env u1 s s1 h1).2.1
  refine ⟨fun h => by rw [hid, if_neg h], fun h => by rw [hid, if_pos h], ?_⟩
  intro hu
  have hne : s1.ScanID ≠ "" := by
    rw [hid]
    by_cases h : s.ScanID = ""
    · rw [if_pos h]
      exact hu
    · rw [if_neg h]
      exact h
  have key : ∀ (env2 : Env) (u2 : String) (s2 : ScanInfo F),
      s1.Init env2 u2 = some s2 → s2.ScanID = s1.ScanID := by
    intro env2 u2 s2 h2
    rw [(init_fields env2 u2 s1 s2 h2).2.1, if_neg hne]
  refine ⟨key, ?_⟩
  intro u2
  obtain ⟨s2, h2, _⟩ := init_again env u1 u2 s s1 h1
  exact ⟨s2, h2, key env u2 s2 h2⟩

/-- Witness of C6 at the zero configuration: the first call assigns the token
`id-1`, a second call offered the token `id-2` keeps `id-1`. -/
theorem init_scanID_witness :
    zeroScanInfo.Init sampleEnv "id-1" = some { zeroScanInfo with ScanID := "id-1" } ∧
    ∃ s2, ({ zeroScanInfo with ScanID := "id-1" } : ScanInfo unitForeign).Init sampleEnv "id-2" =
        some s2 ∧
      s2.ScanID = "id-1" :=
  ⟨rfl, ((init_scanID sampleEnv "id-1" zeroScanInfo { zeroScanInfo with ScanID := "id-1" }
    rfl).2.2 (by decide)).2 "id-2"⟩

/-- C7, as stated, fails: with `UseDefault` set and one policy identifier the
first call of `Init` leaves one path in `UseFrom` and the second call, on the
result, leaves two. -/
theorem init_not_idempotent_useFrom :
    ¬ ∀ (env : Env) (u1 u2 : String) (s s1 s2 : ScanInfo unitForeign),
      s.Init env u1 = some s1 → s1.Init env u2 = some s2 → s2.UseFrom = s1.UseFrom := by
  intro h
  have h2 := h sampleEnv "id-1" "id-2"
    { zeroScanInfo with UseDefault := true, PolicyIdentifier := [mkPolicy "nsa" "Framework"] }
    { zeroScanInfo with
      UseDefault := true, PolicyIdentifier := [mkPolicy "nsa" "Framework"],
      UseFrom := ["/cache/nsa.json"], ScanID := "id-1" }
    { zeroScanInfo with
      UseDefault := true, PolicyIdentifier := [mkPolicy "nsa" "Framework"],
      UseFrom := ["/cache/nsa.json", "/cache/nsa.json"], ScanID := "id-1" }
    rfl rfl
  revert h2
  decide

/-- C7, amended: every returning call of `Init` appends `initAppended` to
`UseFrom`, and a second call on the result, in the same environment, returns
and appends the same paths once more; so two calls leave the same `UseFrom` as
one call exactly when the call appends nothing. -/
theorem init_twice_useFrom (env : Env) (u1 u2 : String) (s s1 : ScanInfo F)
    (h1 : s.Init env u1 = some s1) :
    s1.UseFrom = s.UseFrom ++ initAppended env s ∧
    ∃ s2, s1.Init env u2 = some s2 ∧
      s2.UseFrom = s1.UseFrom ++ initAppended env s ∧
      (s2.UseFrom = s1.UseFrom ↔ initAppended env s = []) := by
  have hf := (init_fields env u1 s s1 h1).1
  obtain ⟨s2, h2, happ⟩ := init_again env u1 u2 s s1 h1
  have hf2 := (init_fields env u2 s1 s2 h2).1
  rw [happ] at hf2
  refine ⟨hf, s2, h2, hf2, ?_⟩
  rw [hf2]
  constructor
  · intro h
    exact List.append_right_eq_self.1 h
  · intro h
    rw [h, List.append_nil]

/-- Witness of C7 amended at the offline-artifact file `/artifacts/nsa.json`. -/
theorem init_twice_useFrom_witness :
    ∃ s1 : ScanInfo unitForeign,
      ({ zeroScanInfo with UseArtifactsFrom := "/artifacts" } :
        ScanInfo unitForeign).Init sampleEnv "id-1" = some s1 ∧
      s1.UseFrom = ["/artifacts/nsa.json"] ∧
      ∃ s2, s1.Init sampleEnv "id-2" = some s2 ∧
        s2.UseFrom = s1.UseFrom ++ initAppended sampleEnv
          ({ zeroScanInfo with UseArtifactsFrom := "/artifacts" } : ScanInfo unitForeign) :=
  ⟨{ zeroScanInfo with
      UseArtifactsFrom := "/artifacts", UseFrom := ["/artifacts/nsa.json"],
      ControlsInputs := "/artifacts/controls-inputs.json",
      UseExceptions := "/artifacts/exceptions.json", ScanID := "id-1" },
    rfl, rfl,
    let ⟨s2, h2, h3, _⟩ := (init_twice_useFrom sampleEnv "id-1" "id-2"
      ({ zeroScanInfo with UseArtifactsFrom := "/artifacts" } : ScanInfo unitForeign)
      { zeroScanInfo with
        UseArtifactsFrom := "/artifacts", UseFrom := ["/artifacts/nsa.json"],
        ControlsInputs := "/artifacts/controls-inputs.json",
        UseExceptions := "/artifacts/exceptions.json", ScanID := "id-1" } rfl).2
    ⟨s2, h2, h3⟩⟩

/-- C8: with an empty `UseArtifactsFrom`, `setUseArtifactsFrom` changes nothing.
With a non-empty one whose directory (the normalized value) lists `files`, it
returns, appends to `UseFrom` exactly the paths `join(dir, name)` of the
entries that are readable and parse as a framework document, in listing order
(so as many paths as there are such entries), and sets `ControlsInputs` to
`join(dir, "controls-inputs.json")` and `UseExceptions` to
`join(dir, "exceptions.json")`, whatever the listing and the previous values
are; no other field changes. -/
theorem setUseArtifactsFrom_spec (env : Env) (s : ScanInfo F) :
    (s.UseArtifactsFrom = "" → s.setUseArtifactsFrom env = some s) ∧
    (s.UseArtifactsFrom ≠ "" →
      ∀ files, env.ReadDir (normalizeArtifactsFrom s.UseArtifactsFrom) = some files →
        ∃ s1, s.setUseArtifactsFrom env = some s1 ∧
          s1.UseFrom = s.UseFrom ++
            (files.filter
              (parsesAsFramework env (normalizeArtifactsFrom s.UseArtifactsFrom))).map
              (env.Join (normalizeArtifactsFrom s.UseArtifactsFrom)) ∧
          s1.UseFrom.length = s.UseFrom.length +
            files.countP (parsesAsFramework env (normalizeArtifactsFrom s.UseArtifactsFrom)) ∧
          s1.ControlsInputs =
            env.Join (normalizeArtifactsFrom s.UseArtifactsFrom) "controls-inputs.json" ∧
          s1.UseExceptions =
            env.Join (normalizeArtifactsFrom s.UseArtifactsFrom) "exceptions.json" ∧
          s1 = { s with
            UseArtifactsFrom := normalizeArtifactsFrom s.UseArtifactsFrom,
            UseFrom := s1.UseFrom,
            ControlsInputs := s1.ControlsInputs,
            UseExceptions := s1.UseExceptions }) := by
  refine ⟨setUseArtifactsFrom_of_empty env s, ?_⟩
  intro h files hr
  refine ⟨_, setUseArtifactsFrom_of_readDir env s files h hr, rfl, ?_, rfl, rfl, rfl⟩
  simp [artifactPaths, List.countP_eq_length_filter]

/-- Witness of C8 at the directory `/artifacts` of `sampleEnv`: three entries,
one of which parses; the previous values of the two derived fields are
overwritten. -/
theorem setUseArtifactsFrom_spec_witness :
    ∃ s1, ({ zeroScanInfo with
        UseArtifactsFrom := "/artifacts", UseFrom := ["local.json"],
        ControlsInputs := "old-inputs.json", UseExceptions := "old-exceptions.json" } :
          ScanInfo unitForeign).setUseArtifactsFrom sampleEnv = some s1 ∧
      s1.UseFrom = ["local.json", "/artifacts/nsa.json"] ∧
      s1.ControlsInputs = "/artifacts/controls-inputs.json" ∧
      s1.UseExceptions = "/artifacts/exceptions.json" := by
  obtain ⟨s1, h1, h2, _, h4, h5, _⟩ := (setUseArtifactsFrom_spec sampleEnv
    ({ zeroScanInfo with
        UseArtifactsFrom := "/artifacts", UseFrom := ["local.json"],
        ControlsInputs := "old-inputs.json", UseExceptions := "old-exceptions.json" } :
          ScanInfo unitForeign)).2 (by decide) ["nsa.json", "notes.txt", "sub"] rfl
  exact ⟨s1, h1, by rw [h2]; decide, by rw [h4]; decide, by rw [h5]; decide⟩

/-- C9 at the bare file name `nsa.json`: `filepath.Split` gives an empty
directory part and the file part `nsa.json`, which contains `.json`; the value
is kept as it is, although the comment in the code requires a path without a
filename, and it is then read as the directory, which ends the process. The
same file given with a directory part, `./nsa.json` or `/artifacts/nsa.json`,
is normalized to its directory. -/
theorem normalizeArtifactsFrom_bare_file_name :
    Split "nsa.json" = ("", "nsa.json") ∧
    Contains "nsa.json" ".json" = true ∧
    normalizeArtifactsFrom "nsa.json" = "nsa.json" ∧
    bareFileEnv.ReadDir "" = some [] ∧
    ({ zeroScanInfo with UseArtifactsFrom := "nsa.json" } :
      ScanInfo unitForeign).setUseArtifactsFrom bareFileEnv = none ∧
    normalizeArtifactsFrom "./nsa.json" = "./" ∧
    normalizeArtifactsFrom "/artifacts/nsa.json" = "/artifacts/" := by
  refine ⟨by decide, by decide, by decide, by decide, ?_, by decide, by decide⟩
  exact setUseArtifactsFrom_of_readDir_error bareFileEnv _ (by decide) (by decide)

/-! ### `scanInfoToScanMetadata` -/

theorem foldl_targetNames (l : List (PolicyIdentifier F)) (m : ScanMetadata) :
    l.foldl (fun m policy => { m with TargetNames := m.TargetNames ++ [policy.Name] }) m =
      { m with TargetNames := m.TargetNames ++ policyNames l } := by
  induction l generalizing m with
  | nil => simp [policyNames]
  | cons p ps ih =>
    rw [List.foldl_cons, ih]
    simp [policyNames]

/-- C10: the metadata `scanInfoToScanMetadata` returns has as `TargetType` the
kind of the first policy identifier (the empty string when there is none), as
`TargetNames` the names of all policy identifiers in order, as `ScanningTarget`
`File` when `GetScanningEnvironment` is `ScanLocalFiles` and `Cluster`
otherwise, and `Format`, `FormatVersion`, `Submit`, `VerboseMode`,
`FailThreshold` and `ControlsInputs` copied from the configuration. -/
theorem scanInfoToScanMetadata_spec (env : Env) (s : ScanInfo F) :
    (scanInfoToScanMetadata env s).ScanMetadata.TargetType =
      (match s.PolicyIdentifier with
        | [] => ""
        | policy :: _ => policy.Kind) ∧
    (scanInfoToScanMetadata env s).ScanMetadata.TargetNames =
      s.PolicyIdentifier.map (fun policy => policy.Name) ∧
    (scanInfoToScanMetadata env s).ScanMetadata.ScanningTarget =
      (if s.GetScanningEnvironment = ScanLocalFiles then ScanningTarget.File
        else ScanningTarget.Cluster) ∧
    (scanInfoToScanMetadata env s).ScanMetadata.Format = s.Format ∧
    (scanInfoToScanMetadata env s).ScanMetadata.FormatVersion = s.FormatVersion ∧
    (scanInfoToScanMetadata env s).ScanMetadata.Submit = s.Submit ∧
    (scanInfoToScanMetadata env s).ScanMetadata.VerboseMode = s.VerboseMode ∧
    (scanInfoToScanMetadata env s).ScanMetadata.FailThreshold = s.FailThreshold ∧
    (scanInfoToScanMetadata env s).ScanMetadata.ControlsInputs = s.ControlsInputs := by
  unfold scanInfoToScanMetadata
  simp only [foldl_targetNames]
  refine ⟨?_, ?_, ?_, ?_, ?_, ?_, ?_, ?_, ?_⟩
  · cases s.PolicyIdentifier <;> split_ifs <;> rfl
  · cases s.PolicyIdentifier <;> split_ifs <;> simp [policyNames, Metadata.zero]
  · split_ifs <;> rfl
  · cases s.PolicyIdentifier <;> split_ifs <;> rfl
  · cases s.PolicyIdentifier <;> split_ifs <;> rfl
  · cases s.PolicyIdentifier <;> split_ifs <;> rfl
  · cases s.PolicyIdentifier <;> split_ifs <;> rfl
  · cases s.PolicyIdentifier <;> split_ifs <;> rfl
  · cases s.PolicyIdentifier <;> split_ifs <;> rfl

/-! ### `setContextMetadata` -/

/-- C11: starting from the empty `ContextMetadata`, `setContextMetadata` sets
exactly one of the four context records, for every input and every result of
the url parser and of `IsFile`: the cluster record for the empty input, the
repo record for an input that parses as a url (its branch being the one
`SetDefaultBranch` fills in when the url has none), the file record when the
resolved path is a regular file, and the directory record in every other case;
the other three records stay unset. -/
theorem setContextMetadata_spec (env : Env) (input : String) :
    (setContextMetadata env Metadata.zero.ContextMetadata input).countSet = 1 ∧
    (input = "" →
      setContextMetadata env Metadata.zero.ContextMetadata input =
        { ClusterContextMetadata := some { ContextName := env.GetContextName },
          RepoContextMetadata := none, FileContextMetadata := none,
          DirectoryContextMetadata := none }) ∧
    (input ≠ "" → ∀ g, env.NewGitURL input = some g →
      setContextMetadata env Metadata.zero.ContextMetadata input =
        { ClusterContextMetadata := none,
          RepoContextMetadata := some
            { Repo := (if g.branch = "" then env.SetDefaultBranch g else g).repo,
              Owner := (if g.branch = "" then env.SetDefaultBranch g else g).owner,
              Branch := (if g.branch = "" then env.SetDefaultBranch g else g).branch },
          FileContextMetadata := none, DirectoryContextMetadata := none }) ∧
    (input ≠ "" → env.NewGitURL input = none →
      env.IsFile (resolvedInput env input) = true →
      setContextMetadata env Metadata.zero.ContextMetadata input =
        { ClusterContextMetadata := none, RepoContextMetadata := none,
          FileContextMetadata := some
            { FilePath := resolvedInput env input, HostName := getHostname env },
          DirectoryContextMetadata := none }) ∧
    (input ≠ "" → env.NewGitURL input = none →
      env.IsFile (resolvedInput env input) = false →
      setContextMetadata env Metadata.zero.ContextMetadata input =
        { ClusterContextMetadata := none, RepoContextMetadata := none,
          FileContextMetadata := none,
          DirectoryContextMetadata := some
            { BasePath := resolvedInput env input, HostName := getHostname env } }) := by
  have hres : (if (!IsAbs input) = true then
        match env.Getwd with
        | some o => env.Join o input
        | none => input
      else input) = resolvedInput env input := by
    unfold resolvedInput
    cases IsAbs input <;> simp
  refine ⟨?_, ?_, ?_, ?_, ?_⟩
  · unfold setContextMetadata
    by_cases h0 : input = ""
    · simp [h0, ContextMetadata.countSet, Metadata.zero]
    · rw [if_neg h0]
      cases hg : env.NewGitURL input with
      | some g => simp [ContextMetadata.countSet, Metadata.zero]
      | none =>
        simp only [hres]
        cases hf : env.IsFile (resolvedInput env input) <;>
          simp [ContextMetadata.countSet, Metadata.zero]
  · intro h0
    simp [setContextMetadata, h0, Metadata.zero]
  · intro h0 g hg
    unfold setContextMetadata
    rw [if_neg h0]
    simp only [hg]
    rfl
  · intro h0 hg hf
    unfold setContextMetadata
    rw [if_neg h0]
    simp only [hg, hres, hf]
    rfl
  · intro h0 hg hf
    unfold setContextMetadata
    rw [if_neg h0]
    simp only [hg, hres, hf]
    rfl

/-- Witness of C11 at the relative path `a.yaml`, which is not a url and
resolves to the regular file `/work/a.yaml`. -/
theorem setContextMetadata_spec_witness :
    setContextMetadata sampleEnv Metadata.zero.ContextMetadata "a.yaml" =
      { ClusterContextMetadata := none, RepoContextMetadata := none,
        FileContextMetadata := some
          { FilePath := resolvedInput sampleEnv "a.yaml", HostName := getHostname sampleEnv },
        DirectoryContextMetadata := none } :=
  (setContextMetadata_spec sampleEnv "a.yaml").2.2.2.1 (by decide) rfl rfl

/-! ### Idempotence of `setOutputFile` -/

theorem ext_append_json (p : String) : Ext (p ++ ".json") = ".json" := by
  apply String.ext
  simp [Ext, String.data_append, extLoop, IsPathSeparator]

theorem ext_append_xml (p : String) : Ext (p ++ ".xml") = ".xml" := by
  apply String.ext
  simp [Ext, String.data_append, extLoop, IsPathSeparator]

theorem ext_append_pdf (p : String) : Ext (p ++ ".pdf") = ".pdf" := by
  apply String.ext
  simp [Ext, String.data_append, extLoop, IsPathSeparator]

theorem append_ne_empty (p e : String) (h : p ≠ "") : p ++ e ≠ "" := by
  intro he
  apply h
  apply String.ext
  have := congrArg String.data he
  rw [String.data_append] at this
  exact (List.append_eq_nil.1 this).1

theorem setOutputFile_of_empty (s : ScanInfo F) (h : s.Output = "") : s.setOutputFile = s := by
  unfold ScanInfo.setOutputFile
  rw [if_pos h]

theorem setOutputFile_of_json (s : ScanInfo F) (h : s.Output ≠ "") (hf : s.Format = "json") :
    s.setOutputFile =
      { s with Output := if Ext s.Output = ".json" then s.Output else s.Output ++ ".json" } := by
  unfold ScanInfo.setOutputFile
  rw [if_neg h]
  simp only []
  rw [setOutputExt_of_format "json" ".json" s hf,
    setOutputExt_of_ne "junit" ".xml" _ (by show s.Format ≠ "junit"; rw [hf]; decide),
    setOutputExt_of_ne "pdf" ".pdf" _ (by show s.Format ≠ "pdf"; rw [hf]; decide)]

theorem setOutputFile_of_junit (s : ScanInfo F) (h : s.Output ≠ "") (hf : s.Format = "junit") :
    s.setOutputFile =
      { s with Output := if Ext s.Output = ".xml" then s.Output else s.Output ++ ".xml" } := by
  unfold ScanInfo.setOutputFile
  rw [if_neg h]
  simp only []
  rw [setOutputExt_of_ne "json" ".json" s (by rw [hf]; decide),
    setOutputExt_of_format "junit" ".xml" s hf,
    setOutputExt_of_ne "pdf" ".pdf" _ (by show s.Format ≠ "pdf"; rw [hf]; decide)]

theorem setOutputFile_of_pdf (s : ScanInfo F) (h : s.Output ≠ "") (hf : s.Format = "pdf") :
    s.setOutputFile =
      { s with Output := if Ext s.Output = ".pdf" then s.Output else s.Output ++ ".pdf" } := by
  unfold ScanInfo.setOutputFile
  rw [if_neg h]
  simp only []
  rw [setOutputExt_of_ne "json" ".json" s (by rw [hf]; decide),
    setOutputExt_of_ne "junit" ".xml" s (by rw [hf]; decide),
    setOutputExt_of_format "pdf" ".pdf" s hf]

theorem setOutputFile_of_other (s : ScanInfo F) (h1 : s.Format ≠ "json")
    (h2 : s.Format ≠ "junit") (h3 : s.Format ≠ "pdf") : s.setOutputFile = s := by
  unfold ScanInfo.setOutputFile
  by_cases h : s.Output = ""
  · rw [if_pos h]
  · rw [if_neg h]
    simp only []
    rw [setOutputExt_of_ne "json" ".json" s h1, setOutputExt_of_ne "junit" ".xml" s h2,
      setOutputExt_of_ne "pdf" ".pdf" s h3]

/-- A configuration whose output already has the extension its format requires
is a fixed point of the format block. -/
theorem setOutputFile_fixed (fmt ext : String) (s : ScanInfo F) (o : String)
    (hstep : ∀ t : ScanInfo F, t.Output ≠ "" → t.Format = fmt →
      t.setOutputFile = { t with Output := if Ext t.Output = ext then t.Output else t.Output ++ ext })
    (hext : ∀ p : String, Ext (p ++ ext) = ext)
    (h : s.Output ≠ "") (hf : s.Format = fmt)
    (ho : o = if Ext s.Output = ext then s.Output else s.Output ++ ext) :
    ({ s with Output := o } : ScanInfo F).setOutputFile = { s with Output := o } := by
  have hne : o ≠ "" := by
    rw [ho]
    by_cases he : Ext s.Output = ext
    · rw [if_pos he]
      exact h
    · rw [if_neg he]
      exact append_ne_empty _ _ h
  have hoe : Ext o = ext := by
    rw [ho]
    by_cases he : Ext s.Output = ext
    · rw [if_pos he]
      exact he
    · rw [if_neg he]
      exact hext _
  rw [hstep { s with Output := o } hne hf]
  simp only [hoe, if_true]

/-- C19: `setOutputFile` is idempotent for every `Output` and `Format`; the
path with an appended extension has exactly that extension; an empty `Output`,
and any `Output` under a format other than `json`, `junit` and `pdf`, is left
unchanged. -/
theorem setOutputFile_idempotent (s : ScanInfo F) :
    s.setOutputFile.setOutputFile = s.setOutputFile ∧
    (∀ p : String, Ext (p ++ ".json") = ".json" ∧ Ext (p ++ ".xml") = ".xml" ∧
      Ext (p ++ ".pdf") = ".pdf") ∧
    (s.Output = "" → s.setOutputFile = s) ∧
    (s.Format ≠ "json" → s.Format ≠ "junit" → s.Format ≠ "pdf" → s.setOutputFile = s) := by
  refine ⟨?_, fun p => ⟨ext_append_json p, ext_append_xml p, ext_append_pdf p⟩,
    setOutputFile_of_empty s, setOutputFile_of_other s⟩
  by_cases h : s.Output = ""
  · rw [setOutputFile_of_empty s h, setOutputFile_of_empty s h]
  · by_cases h1 : s.Format = "json"
    · rw [setOutputFile_of_json s h h1]
      exact setOutputFile_fixed "json" ".json" s _ setOutputFile_of_json ext_append_json h h1 rfl
    · by_cases h2 : s.Format = "junit"
      · rw [setOutputFile_of_junit s h h2]
        exact setOutputFile_fixed "junit" ".xml" s _ setOutputFile_of_junit ext_append_xml h h2
          rfl
      · by_cases h3 : s.Format = "pdf"
        · rw [setOutputFile_of_pdf s h h3]
          exact setOutputFile_fixed "pdf" ".pdf" s _ setOutputFile_of_pdf ext_append_pdf h h3 rfl
        · rw [setOutputFile_of_other s h1 h2 h3, setOutputFile_of_other s h1 h2 h3]

/-- Witness of C19 at the zero configuration, whose `Output` is empty and whose
format is none of the three. -/
theorem setOutputFile_idempotent_witness :
    zeroScanInfo.setOutputFile = zeroScanInfo ∧ zeroScanInfo.setOutputFile = zeroScanInfo :=
  ⟨(setOutputFile_idempotent zeroScanInfo).2.2.1 rfl,
   (setOutputFile_idempotent zeroScanInfo).2.2.2 (by decide) (by decide) (by decide)⟩

/-! ### `JsonPrinter.SetWriter` -/

/-- C17 at the output file `out.json` followed by a space: the trimmed name has
the extension `.json`, so nothing is appended, and the untrimmed name is what is
handed to the writer; its extension is not `.json` and it does not end with
`.json`. A blank name still becomes `report.json`, a name without the
extension gets it appended and a name with it is passed unchanged. -/
theorem writerFileName_trailing_space :
    JsonPrinter.writerFileName "out.json " = "out.json " ∧
    Ext (JsonPrinter.writerFileName "out.json ") ≠ ".json" ∧
    ¬ List.IsSuffix ".json".data (JsonPrinter.writerFileName "out.json ").data ∧
    JsonPrinter.writerFileName "  " = "report.json" ∧
    JsonPrinter.writerFileName "out" = "out.json" ∧
    JsonPrinter.writerFileName "out.json" = "out.json" := by
  decide

/-! ### The compliance score -/

theorem roundHalfUp_eq_natFloor (q : ℚ) : roundHalfUp q = ⌊q + 1 / 2⌋₊ := by
  unfold roundHalfUp
  exact Int.floor_toNat (q + 1 / 2)

theorem roundHalfUp_div (p k : Nat) (hk : 0 < k) :
    roundHalfUp (100 * (p : ℚ) / (k : ℚ)) = (200 * p + k) / (2 * k) := by
  have hk' : (k : ℚ) ≠ 0 := by exact_mod_cast hk.ne'
  have hq : 100 * (p : ℚ) / (k : ℚ) + 1 / 2 = ((200 * p + k : ℕ) : ℚ) / ((2 * k : ℕ) : ℚ) := by
    push_cast
    field_simp
    ring
  rw [roundHalfUp_eq_natFloor, hq, Nat.floor_div_eq_div]

theorem roundHalfUp_of_bounds (q : ℚ) (n : Nat) (h1 : (n : ℚ) ≤ q + 1 / 2)
    (h2 : q + 1 / 2 < (n : ℚ) + 1) : roundHalfUp q = n := by
  rw [roundHalfUp_eq_natFloor]
  exact (Nat.floor_eq_iff (le_trans (Nat.cast_nonneg n) h1)).2 ⟨h1, h2⟩

theorem exceptionApplies_iff (e : Exception) (ns : String) :
    exceptionApplies e ns = true ↔ (e.Namespaces = [] ∨ ns ∈ e.Namespaces) := by
  unfold exceptionApplies
  cases e.Namespaces <;> simp

theorem isIgnored_iff (exceptions : List Exception) (ev : Evaluation) :
    isIgnored exceptions ev = true ↔
      (ev.passed = false ∧
        ∃ e ∈ exceptions, e.Ignore = some true ∧ (e.Namespaces = [] ∨ ev.Namespace ∈ e.Namespaces)) := by
  unfold isIgnored
  simp only [Bool.and_eq_true, Bool.not_eq_true', List.any_eq_true, beq_iff_eq,
    exceptionApplies_iff]

theorem contributionScale_of_no_multiplier (exceptions : List Exception) (ev : Evaluation)
    (h : ∀ e ∈ exceptions, e.MultipleScore = none) : contributionScale exceptions ev = 1 := by
  unfold contributionScale
  generalize (1 : ℚ) = w
  induction exceptions generalizing w with
  | nil => rfl
  | cons e es ih =>
    rw [List.foldl_cons, h e (List.mem_cons_self _ _)]
    exact ih (fun e' he' => h e' (List.mem_cons_of_mem _ he')) w

theorem foldl_addEvaluation (exceptions : List Exception) (evals : List Evaluation)
    (totals : ScoreTotals) (h : ∀ e ∈ exceptions, e.MultipleScore = none) :
    evals.foldl (addEvaluation exceptions) totals =
      { passing := totals.passing + ((evals.filter (fun ev => ev.passed)).length : ℚ),
        total := totals.total +
          ((evals.filter (fun ev => !isIgnored exceptions ev)).length : ℚ) } := by
  induction evals generalizing totals with
  | nil => simp
  | cons ev evs ih =>
    rw [List.foldl_cons, ih]
    unfold addEvaluation
    rw [contributionScale_of_no_multiplier exceptions ev h]
    cases hp : ev.passed with
    | true =>
      have hi : isIgnored exceptions ev = false := by simp [isIgnored, hp]
      simp [hi, hp, List.filter_cons]
      constructor <;> ring
    | false =>
      cases hi : isIgnored exceptions ev with
      | true => simp [hi, hp, List.filter_cons]
      | false =>
        simp [hi, hp, List.filter_cons]
        ring

theorem complianceScore_of_no_multiplier (exceptions : List Exception)
    (evals : List Evaluation) (h : ∀ e ∈ exceptions, e.MultipleScore = none) :
    complianceScore exceptions evals =
      (200 * (evals.filter (fun ev => ev.passed)).length +
          (evals.filter (fun ev => !isIgnored exceptions ev)).length) /
        (2 * (evals.filter (fun ev => !isIgnored exceptions ev)).length) := by
  unfold complianceScore
  rw [foldl_addEvaluation exceptions evals _ h]
  simp only [zero_add]
  by_cases hk : (evals.filter (fun ev => !isIgnored exceptions ev)).length = 0
  · simp [hk]
  · have hk' : ((evals.filter (fun ev => !isIgnored exceptions ev)).length : ℚ) ≠ 0 := by
      exact_mod_cast hk
    rw [if_neg hk', roundHalfUp_div _ _ (Nat.pos_of_ne_zero hk)]

theorem complianceScore_doubleProd : complianceScore [doubleProd] eightEvaluations = 73 := by
  have ht : eightEvaluations.foldl (addEvaluation [doubleProd]) { passing := 0, total := 0 } =
      { passing := 8, total := 11 } := by
    simp [eightEvaluations, addEvaluation, isIgnored, contributionScale, exceptionApplies,
      doubleProd]
    norm_num
  unfold complianceScore
  rw [ht]
  simp only []
  rw [if_neg (by norm_num)]
  apply roundHalfUp_of_bounds <;> norm_num

/-- C18, as stated, fails: with an exception that doubles the contribution of
the namespace `prod`, the eight evaluations with six passing score 73, not the
quotient of the counts, which is 75. -/
theorem complianceScore_with_multiplier :
    ¬ ∀ (exceptions : List Exception) (evals : List Evaluation),
      complianceScore exceptions evals =
        (200 * (evals.filter (fun ev => ev.passed)).length +
            (evals.filter (fun ev => decide (ev.passed = true ∨
              ¬ ∃ e ∈ exceptions, e.Ignore = some true ∧
                (e.Namespaces = [] ∨ ev.Namespace ∈ e.Namespaces)))).length) /
          (2 * (evals.filter (fun ev => decide (ev.passed = true ∨
              ¬ ∃ e ∈ exceptions, e.Ignore = some true ∧
                (e.Namespaces = [] ∨ ev.Namespace ∈ e.Namespaces)))).length) := by
  intro h
  have h1 := h [doubleProd] eightEvaluations
  rw [complianceScore_doubleProd] at h1
  revert h1
  decide

theorem filter_not_isIgnored (exceptions : List Exception) (evals : List Evaluation) :
    evals.filter (fun ev => !isIgnored exceptions ev) =
      evals.filter (fun ev => decide (ev.passed = true ∨
        ¬ ∃ e ∈ exceptions, e.Ignore = some true ∧
          (e.Namespaces = [] ∨ ev.Namespace ∈ e.Namespaces))) := by
  apply List.filter_congr
  intro ev _
  rw [Bool.eq_iff_iff]
  simp only [Bool.not_eq_true', decide_eq_true_eq]
  rw [← Bool.not_eq_true, isIgnored_iff]
  cases ev.passed <;> simp

/-- C18, amended: for every list of exceptions none of which carries a score
multiplier, the compliance score is the number of passing evaluations over the
number of evaluations that are passing or not covered by an applicable
`ignore = true` exception, as an integer percentage rounded half up (the
integer `q` with `q - 1/2 ≤ 100 * passing / kept < q + 1/2`, at most 100);
eight pairs with six passing and no exception score 75, and with one failing
pair covered by an `ignore = true` exception the score is 6/7, that is 86. -/
theorem complianceScore_spec (exceptions : List Exception) (evals : List Evaluation)
    (hnm : ∀ e ∈ exceptions, e.MultipleScore = none) :
    complianceScore exceptions evals =
      (200 * (evals.filter (fun ev => ev.passed)).length +
          (evals.filter (fun ev => decide (ev.passed = true ∨
            ¬ ∃ e ∈ exceptions, e.Ignore = some true ∧
              (e.Namespaces = [] ∨ ev.Namespace ∈ e.Namespaces)))).length) /
        (2 * (evals.filter (fun ev => decide (ev.passed = true ∨
            ¬ ∃ e ∈ exceptions, e.Ignore = some true ∧
              (e.Namespaces = [] ∨ ev.Namespace ∈ e.Namespaces)))).length) ∧
    (0 < (evals.filter (fun ev => decide (ev.passed = true ∨
            ¬ ∃ e ∈ exceptions, e.Ignore = some true ∧
              (e.Namespaces = [] ∨ ev.Namespace ∈ e.Namespaces)))).length →
      2 * (evals.filter (fun ev => decide (ev.passed = true ∨
            ¬ ∃ e ∈ exceptions, e.Ignore = some true ∧
              (e.Namespaces = [] ∨ ev.Namespace ∈ e.Namespaces)))).length *
          complianceScore exceptions evals ≤
        200 * (evals.filter (fun ev => ev.passed)).length +
          (evals.filter (fun ev => decide (ev.passed = true ∨
            ¬ ∃ e ∈ exceptions, e.Ignore = some true ∧
              (e.Namespaces = [] ∨ ev.Namespace ∈ e.Namespaces)))).length ∧
      200 * (evals.filter (fun ev => ev.passed)).length +
          (evals.filter (fun ev => decide (ev.passed = true ∨
            ¬ ∃ e ∈ exceptions, e.Ignore = some true ∧
              (e.Namespaces = [] ∨ ev.Namespace ∈ e.Namespaces)))).length <
        2 * (evals.filter (fun ev => decide (ev.passed = true ∨
            ¬ ∃ e ∈ exceptions, e.Ignore = some true ∧
              (e.Namespaces = [] ∨ ev.Namespace ∈ e.Namespaces)))).length *
          (complianceScore exceptions evals + 1) ∧
      complianceScore exceptions evals ≤ 100) ∧
    complianceScore [] eightEvaluations = 75 ∧
    complianceScore [ignoreProd] eightEvaluations = 86 := by
  have heq := complianceScore_of_no_multiplier exceptions evals hnm
  rw [filter_not_isIgnored] at heq
  have hle : (evals.filter (fun ev => ev.passed)).length ≤
      (evals.filter (fun ev => decide (ev.passed = true ∨
        ¬ ∃ e ∈ exceptions, e.Ignore = some true ∧
          (e.Namespaces = [] ∨ ev.Namespace ∈ e.Namespaces)))).length := by
    rw [← List.countP_eq_length_filter, ← List.countP_eq_length_filter]
    apply List.countP_mono_left
    intro ev _ hp
    simp [hp]
  refine ⟨heq, ?_, ?_, ?_⟩
  · intro hpos
    rw [heq]
    refine ⟨Nat.mul_div_le _ _, Nat.lt_mul_div_succ _ (by omega), ?_⟩
    have : (200 * (evals.filter (fun ev => ev.passed)).length +
        (evals.filter (fun ev => decide (ev.passed = true ∨
          ¬ ∃ e ∈ exceptions, e.Ignore = some true ∧
            (e.Namespaces = [] ∨ ev.Namespace ∈ e.Namespaces)))).length) /
        (2 * (evals.filter (fun ev => decide (ev.passed = true ∨
          ¬ ∃ e ∈ exceptions, e.Ignore = some true ∧
            (e.Namespaces = [] ∨ ev.Namespace ∈ e.Namespaces)))).length) < 101 := by
      rw [Nat.div_lt_iff_lt_mul (by omega)]
      omega
    omega
  · rw [complianceScore_of_no_multiplier [] eightEvaluations (by simp)]
    decide
  · rw [complianceScore_of_no_multiplier [ignoreProd] eightEvaluations (by simp [ignoreProd])]
    decide

/-- Witness of C18 amended at the eight evaluations with the `ignore = true`
exception for `prod`, which carries no multiplier. -/
theorem complianceScore_spec_witness :
    (∀ e ∈ [ignoreProd], e.MultipleScore = none) ∧
      complianceScore [ignoreProd] eightEvaluations ≤ 100 :=
  ⟨by simp [ignoreProd],
    ((complianceScore_spec [ignoreProd] eightEvaluations (by simp [ignoreProd])).2.1
      (by decide)).2.2⟩

/-! ### `getInterfaces` -/

theorem string_length_eq_zero (s : String) : s.length = 0 ↔ s = "" := by
  constructor
  · intro h
    apply String.ext
    exact List.length_eq_zero.1 h
  · intro h
    rw [h]
    rfl

theorem getScanningEnvironment_of_patterns (s : ScanInfo F) (h : 1 ≤ s.InputPatterns.length) :
    s.GetScanningEnvironment ≠ ScanCluster := by
  unfold ScanInfo.GetScanningEnvironment
  rw [if_pos (by omega)]
  exact scanLocalFiles_ne_scanCluster

/-- C16: for a configuration with at least one input pattern `getInterfaces`
returns, leaves `Submit` false whatever the caller set and whatever
`setSubmitBehavior` decided, and does not call `SetTenant`. -/
theorem getInterfaces_local_files (C : Core F T) (s : ScanInfo F)
    (h : 1 ≤ s.InputPatterns.length) :
    (getInterfaces C s).interfaces.isSome = true ∧
    (getInterfaces C s).scanInfo.Submit = false ∧
    (getInterfaces C s).events.countP Event.isSetTenant = 0 ∧
    Event.SetTenant ∉ (getInterfaces C s).events := by
  have henv := getScanningEnvironment_of_patterns s h
  have hpos : s.InputPatterns.length > 0 := h
  unfold getInterfaces
  simp only [henv, false_and, if_false, hpos, if_true]
  refine ⟨rfl, ?_, ?_, ?_⟩
  · unfold excludeHostSensorNamespace
    split_ifs <;> rfl
  · simp [List.countP_cons, List.countP_nil, Event.isSetTenant]
  · simp

/-- Witness of C16 at a configuration with one input pattern for which the
caller asked for submission. -/
theorem getInterfaces_local_files_witness :
    (getInterfaces sampleCore
      ({ zeroScanInfo with InputPatterns := ["a.yaml"], Submit := true } :
        ScanInfo unitForeign)).scanInfo.Submit = false :=
  (getInterfaces_local_files sampleCore
    ({ zeroScanInfo with InputPatterns := ["a.yaml"], Submit := true } : ScanInfo unitForeign)
    (by decide)).2.1

theorem splitComma_of_no_comma (b : List Char) (h : ',' ∉ b) : splitComma b = [b] := by
  induction b with
  | nil => rfl
  | cons c b ih =>
    have hc : c ≠ ',' := fun e => h (by rw [e]; exact List.mem_cons_self _ _)
    have hb : ',' ∉ b := fun e => h (List.mem_cons_of_mem _ e)
    unfold splitComma
    rw [if_neg hc, ih hb]

theorem splitComma_append_comma (a b : List Char) (h : ',' ∉ b) :
    ∃ pre, splitComma (a ++ ',' :: b) = pre ++ [b] ∧ pre ≠ [] := by
  induction a with
  | nil =>
    refine ⟨[[]], ?_, by simp⟩
    show splitComma (',' :: b) = [[]] ++ [b]
    unfold splitComma
    rw [if_pos rfl, splitComma_of_no_comma b h]
    rfl
  | cons c a ih =>
    obtain ⟨pre, hpre, hne⟩ := ih
    show ∃ pre, splitComma (c :: (a ++ ',' :: b)) = pre ++ [b] ∧ pre ≠ []
    unfold splitComma
    by_cases hc : c = ','
    · rw [if_pos hc, hpre]
      exact ⟨[] :: pre, rfl, by simp⟩
    · rw [if_neg hc, hpre]
      cases pre with
      | nil => exact absurd rfl hne
      | cons p ps => exact ⟨(c :: p) :: ps, rfl, by simp⟩

theorem getInterfaces_excludedNamespaces (C : Core F T) (s : ScanInfo F)
    (ifs : componentInterfaces T) (h : (getInterfaces C s).interfaces = some ifs) :
    (getInterfaces C s).scanInfo.ExcludedNamespaces =
      (if s.IncludeNamespaces.length = 0 ∧ C.GetNamespace ifs.hostSensorHandler ≠ "" then
        s.ExcludedNamespaces ++ "," ++ C.GetNamespace ifs.hostSensorHandler
      else s.ExcludedNamespaces) := by
  by_cases hc : s.GetScanningEnvironment = ScanCluster ∧
      (if s.GetScanningEnvironment = ScanCluster then C.getKubernetesApi else none).isNone = true
  · have hn : (getInterfaces C s).interfaces = none := by
      unfold getInterfaces
      simp only []
      rw [if_pos hc]
    rw [hn] at h
    cases h
  · unfold getInterfaces at h ⊢
    simp only [] at h ⊢
    rw [if_neg hc] at h ⊢
    simp only [Option.some.injEq] at h
    subst h
    unfold excludeHostSensorNamespace
    simp only []
    split_ifs <;> simp_all

/-- C15, as stated, fails: with a non-empty `IncludeNamespaces` the namespace of
the provisioned host sensor is not added to `ExcludedNamespaces`. -/
theorem getInterfaces_namespace_not_excluded :
    ¬ ∀ (C : Core unitForeign sampleTypes) (s : ScanInfo unitForeign)
        (ifs : componentInterfaces sampleTypes),
      (getInterfaces C s).interfaces = some ifs →
      inNamespaceList (C.GetNamespace ifs.hostSensorHandler)
        (getInterfaces C s).scanInfo.ExcludedNamespaces := by
  intro h
  have h1 := h sampleCore { zeroScanInfo with IncludeNamespaces := "prod" } sampleInterfaces rfl
  revert h1
  decide

/-- C15, amended: when `IncludeNamespaces` is empty and the namespace of the
active host-sensor collaborator is non-empty, `getInterfaces` appends a comma
and that namespace to `ExcludedNamespaces`, so the namespace (which holds no
comma) is an element of the comma-separated list; when `IncludeNamespaces` is
non-empty or the namespace is empty, `ExcludedNamespaces` is unchanged. -/
theorem getInterfaces_excludes_namespace (C : Core F T) (s : ScanInfo F)
    (ifs : componentInterfaces T) (h : (getInterfaces C s).interfaces = some ifs) :
    (s.IncludeNamespaces = "" → C.GetNamespace ifs.hostSensorHandler ≠ "" →
      (getInterfaces C s).scanInfo.ExcludedNamespaces =
          s.ExcludedNamespaces ++ "," ++ C.GetNamespace ifs.hostSensorHandler ∧
        (',' ∉ (C.GetNamespace ifs.hostSensorHandler).data →
          inNamespaceList (C.GetNamespace ifs.hostSensorHandler)
            (getInterfaces C s).scanInfo.ExcludedNamespaces)) ∧
    (s.IncludeNamespaces ≠ "" ∨ C.GetNamespace ifs.hostSensorHandler = "" →
      (getInterfaces C s).scanInfo.ExcludedNamespaces = s.ExcludedNamespaces) := by
  have hex := getInterfaces_excludedNamespaces C s ifs h
  constructor
  · intro hi hn
    have hcond : s.IncludeNamespaces.length = 0 ∧ C.GetNamespace ifs.hostSensorHandler ≠ "" :=
      ⟨(string_length_eq_zero _).2 hi, hn⟩
    rw [if_pos hcond] at hex
    refine ⟨hex, ?_⟩
    intro hcomma
    unfold inNamespaceList
    rw [hex]
    obtain ⟨pre, hpre, _⟩ := splitComma_append_comma s.ExcludedNamespaces.data
      (C.GetNamespace ifs.hostSensorHandler).data hcomma
    have hd : (s.ExcludedNamespaces ++ "," ++ C.GetNamespace ifs.hostSensorHandler).data =
        s.ExcludedNamespaces.data ++ ',' :: (C.GetNamespace ifs.hostSensorHandler).data := by
      simp [String.data_append]
    rw [hd, hpre]
    simp
  · intro hor
    have hcond : ¬ (s.IncludeNamespaces.length = 0 ∧
        C.GetNamespace ifs.hostSensorHandler ≠ "") := by
      rintro ⟨h1, h2⟩
      rcases hor with h3 | h3
      · exact h3 ((string_length_eq_zero _).1 h1)
      · exact h2 h3
    rw [if_neg hcond] at hex
    exact hex

/-- Witness of C15 amended at the zero configuration over `sampleCore`: the
namespace `host-scanner` is appended to the empty list. -/
theorem getInterfaces_excludes_namespace_witness :
    (getInterfaces sampleCore zeroScanInfo).scanInfo.ExcludedNamespaces = ",host-scanner" ∧
    inNamespaceList "host-scanner"
      (getInterfaces sampleCore zeroScanInfo).scanInfo.ExcludedNamespaces :=
  ⟨((getInterfaces_excludes_namespace sampleCore zeroScanInfo sampleInterfaces rfl).1 rfl
      (by decide)).1,
   ((getInterfaces_excludes_namespace sampleCore zeroScanInfo sampleInterfaces rfl).1 rfl
      (by decide)).2 (by decide)⟩

/-! ### `Scan` -/

theorem scan_of_setup (env : Env) (u : String) (C : Core F T) (s s1 : ScanInfo F)
    (ifs : componentInterfaces T) (h1 : s.Init env u = some s1)
    (h2 : (getInterfaces C s1).interfaces = some ifs) :
    Scan env u C s =
      { returned := some (scanBody C ifs (setGetters C ifs (getInterfaces C s1).scanInfo)).result,
        scanInfo := setGetters C ifs (getInterfaces C s1).scanInfo,
        events := (getInterfaces C s1).events ++
            [Event.SetClusterName (C.GetContextName ifs.tenantConfig),
              Event.SetCustomerGUID (C.GetAccountID ifs.tenantConfig)] ++
            (scanBody C ifs (setGetters C ifs (getInterfaces C s1).scanInfo)).events ++
            [Event.TearDown ifs.hostSensorHandler (C.TearDown ifs.hostSensorHandler)] } := by
  unfold Scan
  simp only [h1, h2]

theorem scan_returned_inv (env : Env) (u : String) (C : Core F T) (s : ScanInfo F)
    (r : ScanResult T) (h : (Scan env u C s).returned = some r) :
    ∃ s1 ifs, s.Init env u = some s1 ∧ (getInterfaces C s1).interfaces = some ifs := by
  cases h1 : s.Init env u with
  | none =>
    unfold Scan at h
    simp only [h1] at h
    cases h
  | some s1 =>
    cases h2 : (getInterfaces C s1).interfaces with
    | none =>
      unfold Scan at h
      simp only [h1, h2] at h
      cases h
    | some ifs => exact ⟨s1, ifs, rfl, h2⟩

theorem scanBody_cases (C : Core F T) (ifs : componentInterfaces T) (cfg : ScanInfo F) :
    (∀ e, (C.CollectResources ifs.resourceHandler cfg.PolicyIdentifier cfg).2 = some e →
      scanBody C ifs cfg =
        { result :=
            { resultsHandling := some (NewResultsHandler ifs.report ifs.printerHandler),
              err := some e },
          events := [Event.CollectResources] }) ∧
    ((C.CollectResources ifs.resourceHandler cfg.PolicyIdentifier cfg).2 = none →
      ∀ e, (C.ProcessRulesListenner
          (C.CollectResources ifs.resourceHandler cfg.PolicyIdentifier cfg).1
          (C.GetContextName ifs.tenantConfig)).2 = some e →
      scanBody C ifs cfg =
        { result :=
            { resultsHandling := some (NewResultsHandler ifs.report ifs.printerHandler),
              err := some e },
          events := [Event.CollectResources, Event.ProcessRulesListenner] }) ∧
    ((C.CollectResources ifs.resourceHandler cfg.PolicyIdentifier cfg).2 = none →
      (C.ProcessRulesListenner
          (C.CollectResources ifs.resourceHandler cfg.PolicyIdentifier cfg).1
          (C.GetContextName ifs.tenantConfig)).2 = none →
      scanBody C ifs cfg =
        { result :=
            { resultsHandling := some
                ((NewResultsHandler ifs.report ifs.printerHandler).SetData
                  (C.ProcessRulesListenner
                    (C.CollectResources ifs.resourceHandler cfg.PolicyIdentifier cfg).1
                    (C.GetContextName ifs.tenantConfig)).1),
              err := none },
          events := [Event.CollectResources, Event.ProcessRulesListenner, Event.SetData] }) := by
  refine ⟨?_, ?_, ?_⟩
  · intro e he
    unfold scanBody
    simp only [he]
  · intro hc e he
    unfold scanBody
    simp only [hc, he]
  · intro hc he
    unfold scanBody
    simp only [hc, he]

theorem scanBody_handle_ne_none (C : Core F T) (ifs : componentInterfaces T)
    (cfg : ScanInfo F) : (scanBody C ifs cfg).result.resultsHandling ≠ none := by
  obtain ⟨h1, h2, h3⟩ := scanBody_cases C ifs cfg
  cases hc : (C.CollectResources ifs.resourceHandler cfg.PolicyIdentifier cfg).2 with
  | some e => rw [h1 e hc]; simp
  | none =>
    cases hp : (C.ProcessRulesListenner
        (C.CollectResources ifs.resourceHandler cfg.PolicyIdentifier cfg).1
        (C.GetContextName ifs.tenantConfig)).2 with
    | some e => rw [h2 hc e hp]; simp
    | none => rw [h3 hc hp]; simp

theorem scanBody_no_tearDown (C : Core F T) (ifs : componentInterfaces T) (cfg : ScanInfo F) :
    (scanBody C ifs cfg).events.countP Event.isTearDown = 0 := by
  obtain ⟨h1, h2, h3⟩ := scanBody_cases C ifs cfg
  cases hc : (C.CollectResources ifs.resourceHandler cfg.PolicyIdentifier cfg).2 with
  | some e => rw [h1 e hc]; rfl
  | none =>
    cases hp : (C.ProcessRulesListenner
        (C.CollectResources ifs.resourceHandler cfg.PolicyIdentifier cfg).1
        (C.GetContextName ifs.tenantConfig)).2 with
    | some e => rw [h2 hc e hp]; rfl
    | none => rw [h3 hc hp]; rfl

theorem getInterfaces_no_tearDown (C : Core F T) (s : ScanInfo F) :
    (getInterfaces C s).events.countP Event.isTearDown = 0 := by
  unfold getInterfaces
  simp only []
  split_ifs <;> simp [List.countP_cons, List.countP_nil, Event.isTearDown]

theorem getInterfaces_hostSensor (C : Core F T) (s : ScanInfo F) (ifs : componentInterfaces T)
    (h : (getInterfaces C s).interfaces = some ifs) :
    ∃ h0, ifs.hostSensorHandler = activeHostSensor C h0 ∧
      Event.HostSensorInit h0 ∈ (getInterfaces C s).events := by
  by_cases hc : s.GetScanningEnvironment = ScanCluster ∧
      (if s.GetScanningEnvironment = ScanCluster then C.getKubernetesApi else none).isNone = true
  · have hn : (getInterfaces C s).interfaces = none := by
      unfold getInterfaces
      simp only []
      rw [if_pos hc]
    rw [hn] at h
    cases h
  · unfold getInterfaces at h ⊢
    simp only [] at h ⊢
    rw [if_neg hc] at h ⊢
    simp only [Option.some.injEq] at h
    subst h
    exact ⟨_, rfl, by simp⟩

/-- C12: the part of `Scan` after the `defer` always yields a non-nil results
handle. When resource collection fails it yields the handle built by
`NewResultsHandler` with that error and runs nothing more; when collection
succeeds and rule evaluation fails it yields the same handle with that error
and `SetData` is not run; when both succeed it yields the handle with the
session attached and a nil error. `Scan` returns that value whenever `Init` and
`getInterfaces` return, so a value `Scan` returns never has a nil handle. -/
theorem scan_results_handle (env : Env) (u : String) (C : Core F T) (s : ScanInfo F) :
    (∀ (ifs : componentInterfaces T) (cfg : ScanInfo F),
      (scanBody C ifs cfg).result.resultsHandling ≠ none ∧
      (∀ e, (C.CollectResources ifs.resourceHandler cfg.PolicyIdentifier cfg).2 = some e →
        (scanBody C ifs cfg).result =
            { resultsHandling := some (NewResultsHandler ifs.report ifs.printerHandler),
              err := some e } ∧
          (scanBody C ifs cfg).events = [Event.CollectResources]) ∧
      ((C.CollectResources ifs.resourceHandler cfg.PolicyIdentifier cfg).2 = none →
        ∀ e, (C.ProcessRulesListenner
            (C.CollectResources ifs.resourceHandler cfg.PolicyIdentifier cfg).1
            (C.GetContextName ifs.tenantConfig)).2 = some e →
        (scanBody C ifs cfg).result =
            { resultsHandling := some (NewResultsHandler ifs.report ifs.printerHandler),
              err := some e } ∧
          (scanBody C ifs cfg).events =
            [Event.CollectResources, Event.ProcessRulesListenner]) ∧
      ((C.CollectResources ifs.resourceHandler cfg.PolicyIdentifier cfg).2 = none →
        (C.ProcessRulesListenner
            (C.CollectResources ifs.resourceHandler cfg.PolicyIdentifier cfg).1
            (C.GetContextName ifs.tenantConfig)).2 = none →
        (scanBody C ifs cfg).result =
            { resultsHandling := some
                ((NewResultsHandler ifs.report ifs.printerHandler).SetData
                  (C.ProcessRulesListenner
                    (C.CollectResources ifs.resourceHandler cfg.PolicyIdentifier cfg).1
                    (C.GetContextName ifs.tenantConfig)).1),
              err := none } ∧
          (scanBody C ifs cfg).events =
            [Event.CollectResources, Event.ProcessRulesListenner, Event.SetData])) ∧
    (∀ (s1 : ScanInfo F) (ifs : componentInterfaces T),
      s.Init env u = some s1 → (getInterfaces C s1).interfaces = some ifs →
      (Scan env u C s).returned =
        some (scanBody C ifs (setGetters C ifs (getInterfaces C s1).scanInfo)).result) ∧
    (∀ r, (Scan env u C s).returned = some r → r.resultsHandling ≠ none) := by
  refine ⟨?_, ?_, ?_⟩
  · intro ifs cfg
    obtain ⟨h1, h2, h3⟩ := scanBody_cases C ifs cfg
    refine ⟨scanBody_handle_ne_none C ifs cfg, ?_, ?_, ?_⟩
    · intro e he
      rw [h1 e he]
      exact ⟨rfl, rfl⟩
    · intro hc e he
      rw [h2 hc e he]
      exact ⟨rfl, rfl⟩
    · intro hc he
      rw [h3 hc he]
      exact ⟨rfl, rfl⟩
  · intro s1 ifs h1 h2
    rw [scan_of_setup env u C s s1 ifs h1 h2]
  · intro r hr
    obtain ⟨s1, ifs, h1, h2⟩ := scan_returned_inv env u C s r hr
    rw [scan_of_setup env u C s s1 ifs h1 h2] at hr
    simp only [Option.some.injEq] at hr
    rw [← hr]
    exact scanBody_handle_ne_none C ifs _

/-- Witness of C12 over `failingRulesCore`: collection succeeds, rule
evaluation fails, and `Scan` returns the handle without session together with
the error of the evaluation. -/
theorem scan_results_handle_witness :
    (Scan sampleEnv "id" failingRulesCore zeroScanInfo).returned =
      some { resultsHandling := some (NewResultsHandler () ()), err := some "rules failed" } := by
  have h := (scan_results_handle sampleEnv "id" failingRulesCore zeroScanInfo).2.1
    { zeroScanInfo with ScanID := "id" } sampleInterfaces rfl rfl
  rw [h]
  rfl

/-- C13, as stated, fails: over `failingRulesCore` collection succeeds and rule
evaluation fails, and the handle that is returned carries no session. -/
theorem scan_failure_without_session :
    ¬ ∀ (C : Core unitForeign sampleTypes) (ifs : componentInterfaces sampleTypes)
        (cfg : ScanInfo unitForeign) (e : Error),
      (C.CollectResources ifs.resourceHandler cfg.PolicyIdentifier cfg).2 = none →
      (C.ProcessRulesListenner
        (C.CollectResources ifs.resourceHandler cfg.PolicyIdentifier cfg).1
        (C.GetContextName ifs.tenantConfig)).2 = some e →
      ∃ h, (scanBody C ifs cfg).result.resultsHandling = some h ∧ h.scanData.isSome = true := by
  intro H
  obtain ⟨h, hh, hd⟩ := H failingRulesCore sampleInterfaces zeroScanInfo "rules failed" rfl rfl
  have hb : (scanBody failingRulesCore sampleInterfaces zeroScanInfo).result.resultsHandling =
      some (NewResultsHandler () ()) := rfl
  rw [hb] at hh
  simp only [Option.some.injEq] at hh
  rw [← hh] at hd
  simp [NewResultsHandler] at hd

/-- C13, amended: when rule evaluation returns a failure, `Scan` returns the
error together with the handle as `NewResultsHandler` built it from the
reporter and the printer, which carries no session; the session, as the
evaluation left it, is attached to the handle only when collection and
evaluation both succeed. -/
theorem scan_session_attached (env : Env) (u : String) (C : Core F T) (s s1 : ScanInfo F)
    (ifs : componentInterfaces T) (h1 : s.Init env u = some s1)
    (h2 : (getInterfaces C s1).interfaces = some ifs) :
    ((C.CollectResources ifs.resourceHandler
          (setGetters C ifs (getInterfaces C s1).scanInfo).PolicyIdentifier
          (setGetters C ifs (getInterfaces C s1).scanInfo)).2 = none →
      ∀ e, (C.ProcessRulesListenner
          (C.CollectResources ifs.resourceHandler
            (setGetters C ifs (getInterfaces C s1).scanInfo).PolicyIdentifier
            (setGetters C ifs (getInterfaces C s1).scanInfo)).1
          (C.GetContextName ifs.tenantConfig)).2 = some e →
      (Scan env u C s).returned =
          some { resultsHandling := some (NewResultsHandler ifs.report ifs.printerHandler),
                 err := some e } ∧
        (NewResultsHandler ifs.report ifs.printerHandler).scanData = none) ∧
    ((C.CollectResources ifs.resourceHandler
          (setGetters C ifs (getInterfaces C s1).scanInfo).PolicyIdentifier
          (setGetters C ifs (getInterfaces C s1).scanInfo)).2 = none →
      (C.ProcessRulesListenner
          (C.CollectResources ifs.resourceHandler
            (setGetters C ifs (getInterfaces C s1).scanInfo).PolicyIdentifier
            (setGetters C ifs (getInterfaces C s1).scanInfo)).1
          (C.GetContextName ifs.tenantConfig)).2 = none →
      ∃ h, (Scan env u C s).returned = some { resultsHandling := some h, err := none } ∧
        h.scanData = (C.ProcessRulesListenner
          (C.CollectResources ifs.resourceHandler
            (setGetters C ifs (getInterfaces C s1).scanInfo).PolicyIdentifier
            (setGetters C ifs (getInterfaces C s1).scanInfo)).1
          (C.GetContextName ifs.tenantConfig)).1) := by
  obtain ⟨_, hb2, hb3⟩ :=
    scanBody_cases C ifs (setGetters C ifs (getInterfaces C s1).scanInfo)
  have hs := scan_of_setup env u C s s1 ifs h1 h2
  constructor
  · intro hc e he
    rw [hs, hb2 hc e he]
    exact ⟨rfl, rfl⟩
  · intro hc he
    rw [hs, hb3 hc he]
    exact ⟨_, rfl, rfl⟩

/-- Witness of C13 amended over `failingRulesCore`: the handle returned with
the error of the evaluation has no session. -/
theorem scan_session_attached_witness :
    (Scan sampleEnv "id" failingRulesCore zeroScanInfo).returned =
        some { resultsHandling := some (NewResultsHandler () ()), err := some "rules failed" } ∧
      (NewResultsHandler () () : ResultsHandler sampleTypes).scanData = none :=
  (scan_session_attached sampleEnv "id" failingRulesCore zeroScanInfo
    { zeroScanInfo with ScanID := "id" } sampleInterfaces rfl rfl).1 rfl "rules failed" rfl

/-- C14: whenever `Scan` returns, on each of its return paths, the calls it
made end with one `TearDown` of the active host-sensor collaborator, which
comes right after the calls of the last stage that ran, and there is no other
`TearDown`; the active collaborator is the mock when `Init` of the provisioned
one failed; and the value `Scan` returns is the same whatever `TearDown`
returns. -/
theorem scan_tearDown_once (env : Env) (u : String) (C : Core F T) (s : ScanInfo F)
    (r : ScanResult T) (h : (Scan env u C s).returned = some r) :
    ∃ s1 ifs h0 pre, s.Init env u = some s1 ∧
      (getInterfaces C s1).interfaces = some ifs ∧
      ifs.hostSensorHandler = activeHostSensor C h0 ∧
      ((C.hostSensorInit h0).isSome = true → ifs.hostSensorHandler = C.HostSensorHandlerMock) ∧
      (Scan env u C s).events =
        pre ++ (scanBody C ifs (setGetters C ifs (getInterfaces C s1).scanInfo)).events ++
          [Event.TearDown ifs.hostSensorHandler (C.TearDown ifs.hostSensorHandler)] ∧
      (scanBody C ifs (setGetters C ifs (getInterfaces C s1).scanInfo)).events ≠ [] ∧
      (pre ++ (scanBody C ifs (setGetters C ifs (getInterfaces C s1).scanInfo)).events).countP
        Event.isTearDown = 0 ∧
      (Scan env u C s).events.countP Event.isTearDown = 1 ∧
      (∀ td : T.IHostSensor → Option Error,
        (Scan env u { C with TearDown := td } s).returned = some r) := by
  obtain ⟨s1, ifs, h1, h2⟩ := scan_returned_inv env u C s r h
  obtain ⟨h0, hh0, _⟩ := getInterfaces_hostSensor C s1 ifs h2
  have hs := scan_of_setup env u C s s1 ifs h1 h2
  have hpre : ((getInterfaces C s1).events ++
      [Event.SetClusterName (C.GetContextName ifs.tenantConfig),
        Event.SetCustomerGUID (C.GetAccountID ifs.tenantConfig)] ++
      (scanBody C ifs (setGetters C ifs (getInterfaces C s1).scanInfo)).events).countP
        Event.isTearDown = 0 := by
    rw [List.countP_append, List.countP_append, getInterfaces_no_tearDown,
      scanBody_no_tearDown]
    rfl
  refine ⟨s1, ifs, h0, (getInterfaces C s1).events ++
      [Event.SetClusterName (C.GetContextName ifs.tenantConfig),
        Event.SetCustomerGUID (C.GetAccountID ifs.tenantConfig)],
    h1, h2, hh0, ?_, ?_, ?_, hpre, ?_, ?_⟩
  · intro hi
    rw [hh0]
    unfold activeHostSensor
    rw [if_pos hi]
  · rw [hs]
  · obtain ⟨hb1, hb2, hb3⟩ :=
      scanBody_cases C ifs (setGetters C ifs (getInterfaces C s1).scanInfo)
    cases hc : (C.CollectResources ifs.resourceHandler
        (setGetters C ifs (getInterfaces C s1).scanInfo).PolicyIdentifier
        (setGetters C ifs (getInterfaces C s1).scanInfo)).2 with
    | some e => rw [hb1 e hc]; simp
    | none =>
      cases hp : (C.ProcessRulesListenner
          (C.CollectResources ifs.resourceHandler
            (setGetters C ifs (getInterfaces C s1).scanInfo).PolicyIdentifier
            (setGetters C ifs (getInterfaces C s1).scanInfo)).1
          (C.GetContextName ifs.tenantConfig)).2 with
      | some e => rw [hb2 hc e hp]; simp
      | none => rw [hb3 hc hp]; simp
  · rw [hs]
    show List.countP Event.isTearDown (_ ++ [Event.TearDown _ _]) = 1
    rw [List.countP_append, hpre]
    rfl
  · intro td
    have h2t : (getInterfaces { C with TearDown := td } s1).interfaces = some ifs := h2
    rw [scan_of_setup env u { C with TearDown := td } s s1 ifs h1 h2t]
    rw [hs] at h
    exact h

/-- Witness of C14 over `failingSensorCore`: `Init` of the host sensor fails,
the mock is substituted, the run completes, and the calls hold one `TearDown`
although it returns an error. -/
theorem scan_tearDown_once_witness :
    (Scan sampleEnv "id" failingSensorCore zeroScanInfo).returned =
        some { resultsHandling := some ((NewResultsHandler () ()).SetData (some "session")),
               err := none } ∧
      (Scan sampleEnv "id" failingSensorCore zeroScanInfo).events.countP Event.isTearDown = 1 := by
  obtain ⟨_, _, _, _, _, _, _, _, _, _, _, h, _⟩ :=
    scan_tearDown_once sampleEnv "id" failingSensorCore zeroScanInfo
      { resultsHandling := some ((NewResultsHandler () ()).SetData (some "session")),
        err := none } rfl
  exact ⟨rfl, h⟩

end Kubescape
